import Mathlib

/-!
# Verification of the sqlparser lexer and parser

Shallow embedding of the Go package sqlparser (files lexer.go and parser.go).

The scanner is modelled at the character level.  The underlying buffered
reader is modelled by `SState`: the remaining characters plus the
one-rune unread capability of bufio.Reader (`UnreadRune` only succeeds
when the most recent operation was a successful `ReadRune`; a second
consecutive unread is a silent no-op, since the Go code discards the
error).  End of input is reported as the rune 0 sentinel, exactly as in
the Go code (`eof = rune(0)`).

The parser is modelled over the scanner's token stream: a list of
(token, literal) pairs, with the one-token pushback buffer of the Go
`Parser` struct reproduced field by field.  Pulling a token from an
exhausted stream yields (EOF, "EOF") repeatedly, which is exactly what
`Scanner.Scan` does at end of input.

Loops that have no structural termination argument in the Go source are
given an explicit fuel parameter; `none` means the fuel ran out (and, for
the loops that check no end-of-input condition, that the Go code loops
forever).  The Go constant name ANNOTATION is shortened to ANNOT here.
-/

/-- Token kinds, from the Go constant block in lexer.go.  ANNOT is the Go
constant named by the word "ANNOTATION" there. -/
inductive Tok where
  | ILLEGAL
  | EOF
  | ANNOT
  | WS
  | STRING
  | IDENT
  | COMMA
  | BACKTICK
  | SEMI_COLON
  | OPEN_PAREN
  | CLOSE_PAREN
  | SIZE
  | BIT
  | TINYINT
  | SMALLINT
  | INT
  | BIGINT
  | FLOAT
  | DOUBLE
  | LONGTEXT
  | MEDIUMTEXT
  | VARCHAR
  | DATE
  | TIME
  | DATETIME
  | TIMESTAMP
  | DROP
  | LOCK
  | UNLOCK
  | TABLES
  | WRITE
  | IF
  | EXISTS
  | EQUAL
  | CREATE
  | TABLE
  | DEFAULT
  | NOT
  | NULL
  | COMMENT
  | KEY
  | UNIQUE
  | CONSTRAINT
  | PRIMARY
  | FOREIGN
  | REFERENCES
  | AUTO_INCREMENT
  | CURRENT_TIMESTAMP
  deriving DecidableEq, Repr

/-- The eof sentinel rune, `eof = rune(0)` in lexer.go. -/
def eofc : Char := Char.ofNat 0

/-- isWhitespace from lexer.go. -/
def isWhitespace (ch : Char) : Bool :=
  ch = ' ' || ch = '\t' || ch = '\n'

/-- isLetter from lexer.go. -/
def isLetter (ch : Char) : Bool :=
  ('a' ≤ ch && ch ≤ 'z') || ('A' ≤ ch && ch ≤ 'Z')

/-- isDigit from lexer.go. -/
def isDigit (ch : Char) : Bool :=
  '0' ≤ ch && ch ≤ '9'

/-- Scanner state: the remaining characters of the stream, plus the last
successfully read rune when an unread is still possible (bufio.Reader
allows exactly one `UnreadRune` after a successful `ReadRune`). -/
structure SState where
  rem : List Char
  last : Option Char
  deriving DecidableEq, Repr

namespace Scanner

/-- `(s *Scanner) read()`: one rune, or the eof sentinel at end of input.
A failed read clears the unread capability (bufio sets lastRuneSize=-1). -/
def read (s : SState) : Char × SState :=
  match s.rem with
  | [] => (eofc, { s with last := none })
  | c :: r => (c, ⟨r, some c⟩)

/-- `(s *Scanner) unread()`: push the last read rune back; the error from
a second consecutive UnreadRune is discarded, making it a no-op. -/
def unread (s : SState) : SState :=
  match s.last with
  | none => s
  | some c => ⟨c :: s.rem, none⟩

/-- Loop body of scanWhitespace in lexer.go. -/
def scanWhitespaceLoop (buf : String) (s : SState) : Nat → Option (Tok × String × SState)
  | 0 => none
  | fuel + 1 =>
    let (ch, s1) := read s
    if ch = eofc then some (Tok.WS, buf, s1)
    else if ¬ isWhitespace ch then some (Tok.WS, buf, unread s1)
    else scanWhitespaceLoop (buf.push ch) s1 fuel

/-- scanWhitespace from lexer.go: first rune unconditionally buffered. -/
def scanWhitespace (s : SState) (fuel : Nat) : Option (Tok × String × SState) :=
  let (ch, s1) := read s
  scanWhitespaceLoop (String.mk [ch]) s1 fuel

/-- Loop body of scanDigit in lexer.go. -/
def scanDigitLoop (buf : String) (s : SState) : Nat → Option (Tok × String × SState)
  | 0 => none
  | fuel + 1 =>
    let (ch, s1) := read s
    if ch = eofc then some (Tok.SIZE, buf, s1)
    else if ¬ isDigit ch then some (Tok.SIZE, buf, unread s1)
    else scanDigitLoop (buf.push ch) s1 fuel

/-- scanDigit from lexer.go. -/
def scanDigit (s : SState) (fuel : Nat) : Option (Tok × String × SState) :=
  let (ch, s1) := read s
  scanDigitLoop (String.mk [ch]) s1 fuel

/-- The readString closure in scanString: reads (and buffers) runes until
the closing quote character; there is no end-of-input check, so at end of
input it keeps buffering the eof sentinel forever. -/
def readStringLoop (close : Char) (buf : String) (s : SState) :
    Nat → Option (String × SState)
  | 0 => none
  | fuel + 1 =>
    let (ch, s1) := read s
    if ch = close then some (buf, s1)
    else readStringLoop close (buf.push ch) s1 fuel

/-- scanString from lexer.go: backtick-quoted text is an IDENT, single
quoted text is a STRING; anything else is ILLEGAL. -/
def scanString (s : SState) (fuel : Nat) : Option (Tok × String × SState) :=
  let (ch, s1) := read s
  if ch = '`' then
    match readStringLoop '`' "" s1 fuel with
    | none => none
    | some (lit, s2) => some (Tok.IDENT, lit, s2)
  else if ch = '\'' then
    match readStringLoop '\'' "" s1 fuel with
    | none => none
    | some (lit, s2) => some (Tok.STRING, lit, s2)
  else some (Tok.ILLEGAL, String.mk [ch], s1)

/-- scanInlineComment from lexer.go: consume runes; on a star, consume one
more rune and stop if it is a slash; stop with ILLEGAL at end of input. -/
def scanInlineCommentLoop (s : SState) : Nat → Option (Tok × String × SState)
  | 0 => none
  | fuel + 1 =>
    let (ch, s1) := read s
    if ch = eofc then some (Tok.ILLEGAL, "", s1)
    else if ch = '*' then
      let (c, s2) := read s1
      if c = '/' then some (Tok.ANNOT, "", s2)
      else scanInlineCommentLoop s2 fuel
    else scanInlineCommentLoop s1 fuel

/-- strings.ToUpper restricted to ASCII.  The ident buffer only ever
holds ASCII letters, digits and underscores (isLetter admits nothing
else), on which the Go function acts exactly like this one. -/
def asciiUpper (s : String) : String :=
  String.mk (s.data.map (fun c =>
    if 'a' ≤ c ∧ c ≤ 'z' then Char.ofNat (c.toNat - 32) else c))

/-- Keyword classification of scanIdent in lexer.go: the buffered word is
upper-cased and looked up; unknown words are IDENT. -/
def keywordTok (w : String) : Tok :=
  if w = "DROP" then Tok.DROP
  else if w = "IF" then Tok.IF
  else if w = "EXISTS" then Tok.EXISTS
  else if w = "LOCK" then Tok.LOCK
  else if w = "UNLOCK" then Tok.UNLOCK
  else if w = "TABLES" then Tok.TABLES
  else if w = "WRITE" then Tok.WRITE
  else if w = "CREATE" then Tok.CREATE
  else if w = "TABLE" then Tok.TABLE
  else if w = "NOT" then Tok.NOT
  else if w = "NULL" then Tok.NULL
  else if w = "DEFAULT" then Tok.DEFAULT
  else if w = "COMMENT" then Tok.COMMENT
  else if w = "KEY" then Tok.KEY
  else if w = "UNIQUE" then Tok.UNIQUE
  else if w = "CONSTRAINT" then Tok.CONSTRAINT
  else if w = "PRIMARY" then Tok.PRIMARY
  else if w = "FOREIGN" then Tok.FOREIGN
  else if w = "REFERENCES" then Tok.REFERENCES
  else if w = "AUTO_INCREMENT" then Tok.AUTO_INCREMENT
  else if w = "CURRENT_TIMESTAMP" then Tok.CURRENT_TIMESTAMP
  else if w = "BIT" then Tok.BIT
  else if w = "TINYINT" then Tok.TINYINT
  else if w = "SMALLINT" then Tok.SMALLINT
  else if w = "INT" then Tok.INT
  else if w = "BIGINT" then Tok.BIGINT
  else if w = "FLOAT" then Tok.FLOAT
  else if w = "DOUBLE" then Tok.DOUBLE
  else if w = "VARCHAR" then Tok.VARCHAR
  else if w = "LONGTEXT" then Tok.LONGTEXT
  else if w = "MEDIUMTEXT" then Tok.MEDIUMTEXT
  else if w = "DATE" then Tok.DATE
  else if w = "TIME" then Tok.TIME
  else if w = "DATETIME" then Tok.DATETIME
  else if w = "TIMESTAMP" then Tok.TIMESTAMP
  else Tok.IDENT

/-- Loop body of the scanner's scanIdent in lexer.go. -/
def scanIdentLoop (buf : String) (s : SState) : Nat → Option (String × SState)
  | 0 => none
  | fuel + 1 =>
    let (ch, s1) := read s
    if ch = eofc then some (buf, s1)
    else if ¬ isLetter ch && ¬ isDigit ch && ch ≠ '_' then some (buf, unread s1)
    else scanIdentLoop (buf.push ch) s1 fuel

/-- The scanner's scanIdent from lexer.go: buffer a word, classify it. -/
def scanIdent (s : SState) (fuel : Nat) : Option (Tok × String × SState) :=
  let (ch, s1) := read s
  match scanIdentLoop (String.mk [ch]) s1 fuel with
  | none => none
  | some (w, s2) => some (keywordTok (asciiUpper w), w, s2)

/-- The loop scanning a line comment after a leading double dash in Scan
(lexer.go): runs until a newline, with no end-of-input check. -/
def lineCommentLoop (s : SState) : Nat → Option (Tok × String × SState)
  | 0 => none
  | fuel + 1 =>
    let (c, s1) := read s
    if c = '\n' then some (Tok.ANNOT, "", s1)
    else lineCommentLoop s1 fuel

/-- Scan from lexer.go: one token per call. -/
def Scan (s : SState) (fuel : Nat) : Option (Tok × String × SState) :=
  let (ch, s1) := read s
  if isWhitespace ch then scanWhitespace (unread s1) fuel
  else if isLetter ch then scanIdent (unread s1) fuel
  else if isDigit ch then scanDigit (unread s1) fuel
  else if ch = '\'' || ch = '`' then scanString (unread s1) fuel
  else if ch = '/' then
    let (c, s2) := read s1
    if c = '*' then scanInlineCommentLoop (unread (unread s2)) fuel
    else some (Tok.ILLEGAL, String.mk [ch], unread s2)
  else if ch = eofc then some (Tok.EOF, "EOF", s1)
  else if ch = ',' then some (Tok.COMMA, ",", s1)
  else if ch = '(' then some (Tok.OPEN_PAREN, "(", s1)
  else if ch = ')' then some (Tok.CLOSE_PAREN, ")", s1)
  else if ch = ';' then some (Tok.SEMI_COLON, ";", s1)
  else if ch = '=' then some (Tok.EQUAL, "=", s1)
  else if ch = '-' then
    let (c, s2) := read s1
    if c = '-' then lineCommentLoop s2 fuel
    else some (Tok.ILLEGAL, String.mk [ch], s2)
  else some (Tok.ILLEGAL, String.mk [ch], s1)

/-- Repeated Scan until EOF, collecting the (token, literal) pairs.  This
is the loop the tests of the package run; the parser pulls the same
sequence one token at a time. -/
def tokenize (s : SState) : Nat → Option (List (Tok × String))
  | 0 => none
  | fuel + 1 =>
    match Scan s fuel with
    | none => none
    | some (Tok.EOF, _, _) => some []
    | some (t, lit, s1) =>
      match tokenize s1 fuel with
      | none => none
      | some rest => some ((t, lit) :: rest)

end Scanner

/-- Fresh scanner state over an input string. -/
def mkScan (input : String) : SState := ⟨input.toList, none⟩

/-! ## Data model (parser.go) -/

/-- Column from parser.go.  The Go field Default has type interface{} and
only ever holds nil or a string; it is modelled as an Option String.
The Go field named Type is called Typ here (Type is reserved in Lean). -/
structure Column where
  Name : String
  Typ : String
  Size : Nat
  Default : Option String
  Comment : String
  Nullable : Bool
  AutoIncr : Bool
  deriving DecidableEq, Repr

/-- The zero value a fresh `&Column{}` has in Go. -/
def Column.empty : Column := ⟨"", "", 0, none, "", false, false⟩

/-- Constraint from parser.go. -/
structure Constraint where
  Index : String
  ForeignKey : String
  TableName : String
  ColumnName : String
  deriving DecidableEq, Repr

/-- Go map insertion m[k] = v, modelled on association lists: replace the
binding of k in place if present, else append. -/
def upsert {α : Type} : List (String × α) → String → α → List (String × α)
  | [], k, v => [(k, v)]
  | (k', v') :: rest, k, v =>
    if k' = k then (k, v) :: rest else (k', v') :: upsert rest k v

/-- Table from parser.go; the Go maps are association lists here. -/
structure Table where
  Name : String
  Columns : List (String × Column)
  PrimaryKey : String
  UniqueKeys : List (String × String)
  Keys : List (String × String)
  Constraints : List (String × Constraint)
  Extras : List (String × String)
  deriving DecidableEq, Repr

/-- The table allocated at the top of parse() in parser.go: empty maps,
with the name filled in once scanned. -/
def Table.fresh (name : String) : Table := ⟨name, [], "", [], [], [], []⟩

/-- Schema from parser.go: map from table name to Table. -/
abbrev Schema := List (String × Table)

/-- Parser state from parser.go: the token source plus the one-token
pushback buffer struct { tok Token; lit string; n int }. -/
structure Parser where
  toks : List (Tok × String)
  bufTok : Tok × String
  bufN : Nat
  deriving DecidableEq, Repr

/-- NewParser: fresh parser over a token stream; the Go buffer starts as
the zero value (Token(0) = ILLEGAL, empty literal, n = 0). -/
def mkParser (ts : List (Tok × String)) : Parser := ⟨ts, (Tok.ILLEGAL, ""), 0⟩

/-- Errors are the strings built with fmt.Errorf in parser.go. -/
abbrev Err := String

/-- The "found %q, expected ..." message shape of parser.go. -/
def foundExpected (lit what : String) : Err :=
  "found " ++ lit ++ ", expected " ++ what

namespace Parser

/-- (p *Parser) scan(): replay the buffered token if n is set, else pull a
fresh token (the scanner yields (EOF, "EOF") forever once exhausted) and
remember it in the buffer. -/
def scan (p : Parser) : (Tok × String) × Parser :=
  if p.bufN ≠ 0 then (p.bufTok, { p with bufN := 0 })
  else
    match p.toks with
    | [] => ((Tok.EOF, "EOF"), { p with bufTok := (Tok.EOF, "EOF"), bufN := 0 })
    | t :: r => (t, ⟨r, t, 0⟩)

/-- (p *Parser) unscan(). -/
def unscan (p : Parser) : Parser := { p with bufN := 1 }

/-- scanIgnoreWhitespace from parser.go: one scan; if that token is WS or
ANNOTATION, one more scan; return whatever that produced. -/
def scanIgnoreWhitespace (p : Parser) : (Tok × String) × Parser :=
  let (t, p1) := scan p
  if t.1 = Tok.WS ∨ t.1 = Tok.ANNOT then scan p1 else (t, p1)

/-- The parser's scanIdent from parser.go. -/
def scanIdent (p : Parser) : (Tok × String) × Parser :=
  let (t, p1) := scanIgnoreWhitespace p
  if t.1 ≠ Tok.IDENT then ((Tok.ILLEGAL, t.2), p1) else (t, p1)

/-- The Go test tok >= BIT && tok <= TIMESTAMP over the iota ordering. -/
def isTypeTok : Tok → Bool
  | Tok.BIT | Tok.TINYINT | Tok.SMALLINT | Tok.INT | Tok.BIGINT
  | Tok.FLOAT | Tok.DOUBLE | Tok.LONGTEXT | Tok.MEDIUMTEXT | Tok.VARCHAR
  | Tok.DATE | Tok.TIME | Tok.DATETIME | Tok.TIMESTAMP => true
  | _ => false

/-- The Type map built in init() of parser.go. -/
def typeName : Tok → String
  | Tok.BIT => "bit"
  | Tok.TINYINT => "tinyint"
  | Tok.SMALLINT => "smallint"
  | Tok.INT => "int"
  | Tok.BIGINT => "bigint"
  | Tok.FLOAT => "float"
  | Tok.DOUBLE => "double"
  | Tok.VARCHAR => "varchar"
  | Tok.LONGTEXT => "longtext"
  | Tok.MEDIUMTEXT => "mediumtext"
  | Tok.DATE => "date"
  | Tok.TIME => "time"
  | Tok.DATETIME => "datetime"
  | Tok.TIMESTAMP => "timestamp"
  | _ => ""

/-- strconv.Atoi with the error discarded, as scanType does: digit
strings evaluate to their value, anything else to 0. -/
def atoiModel (s : String) : Nat :=
  if s.data ≠ [] ∧ s.data.all Char.isDigit then
    s.data.foldl (fun n c => n * 10 + (c.toNat - 48)) 0
  else 0

/-- scanType from parser.go. -/
def scanType (p : Parser) : Except Err (String × Nat) × Parser :=
  let (t, p1) := scanIgnoreWhitespace p
  if isTypeTok t.1 then
    let (t1, p2) := scanIgnoreWhitespace p1
    if t1.1 ≠ Tok.OPEN_PAREN then (Except.ok (typeName t.1, 0), unscan p2)
    else
      let (t2, p3) := scanIgnoreWhitespace p2
      let (t3, p4) := scanIgnoreWhitespace p3
      if t2.1 ≠ Tok.SIZE ∨ t3.1 ≠ Tok.CLOSE_PAREN then
        (Except.error (foundExpected (t.2 ++ t1.2 ++ t2.2 ++ t3.2) "type(integer)"), p4)
      else (Except.ok (typeName t.1, atoiModel t2.2), p4)
  else (Except.error (foundExpected t.2 "type"), p1)

/-- scanDefault from parser.go. -/
def scanDefault (p : Parser) : Except Err String × Parser :=
  let (t, p1) := scanIgnoreWhitespace p
  if t.1 ≠ Tok.DEFAULT then (Except.error (foundExpected t.2 "DEFAULT"), p1)
  else
    let (t2, p2) := scanIgnoreWhitespace p1
    match t2.1 with
    | Tok.NULL => (Except.ok "null", p2)
    | Tok.CURRENT_TIMESTAMP => (Except.ok "current_timestamp", p2)
    | Tok.STRING => (Except.ok t2.2, p2)
    | _ => (Except.error (foundExpected t2.2 "NULL or value"), p2)

/-- The clause loop of scanColumn in parser.go. -/
def scanColumnLoop (col : Column) (p : Parser) : Nat → Option (Except Err Column × Parser)
  | 0 => none
  | fuel + 1 =>
    let (t, p1) := scanIgnoreWhitespace p
    match t.1 with
    | Tok.DEFAULT =>
      match scanDefault (unscan p1) with
      | (Except.error e, p2) => some (Except.error e, p2)
      | (Except.ok v, p2) =>
        scanColumnLoop
          { col with Default := some v, Nullable := decide (v = "null") } p2 fuel
    | Tok.NULL => scanColumnLoop { col with Nullable := true } p1 fuel
    | Tok.NOT =>
      let (t1, p2) := scanIgnoreWhitespace p1
      if t1.1 ≠ Tok.NULL then some (Except.error (foundExpected t1.2 "NULL"), p2)
      else scanColumnLoop { col with Nullable := false } p2 fuel
    | Tok.COMMENT =>
      let (t1, p2) := scanIgnoreWhitespace p1
      if t1.1 = Tok.STRING then scanColumnLoop { col with Comment := t1.2 } p2 fuel
      else some (Except.error (foundExpected t1.2 "'comment'"), p2)
    | Tok.AUTO_INCREMENT => scanColumnLoop { col with AutoIncr := true } p1 fuel
    | Tok.COMMA => some (Except.ok col, unscan p1)
    | Tok.CLOSE_PAREN => some (Except.ok col, unscan p1)
    | Tok.EOF => some (Except.error "unexpected EOF", p1)
    | _ => some (Except.error (foundExpected t.2 "column constraint"), p1)

/-- scanColumn from parser.go: name, type, then the clause loop. -/
def scanColumn (p : Parser) (fuel : Nat) : Option (Except Err Column × Parser) :=
  let (t, p1) := scanIdent p
  if t.1 ≠ Tok.IDENT then some (Except.error (foundExpected t.2 "ident"), p1)
  else
    match scanType p1 with
    | (Except.error e, p2) => some (Except.error e, p2)
    | (Except.ok (ty, sz), p2) =>
      scanColumnLoop { Column.empty with Name := t.2, Typ := ty, Size := sz } p2 fuel

/-- scanParenIdent from parser.go. -/
def scanParenIdent (p : Parser) : (Tok × String) × Parser :=
  let (t, p1) := scanIgnoreWhitespace p
  if t.1 ≠ Tok.OPEN_PAREN then ((Tok.ILLEGAL, t.2), p1)
  else
    let (t2, p2) := scanIgnoreWhitespace p1
    if t2.1 = Tok.IDENT then
      let (t3, p3) := scanIgnoreWhitespace p2
      if t3.1 ≠ Tok.CLOSE_PAREN then ((Tok.ILLEGAL, t2.2 ++ t3.2), p3)
      else ((Tok.IDENT, t2.2), p3)
    else ((Tok.ILLEGAL, ""), p2)

/-- scanPrimaryKey from parser.go.  Note that after the OPEN_PAREN test
fails there is no pushback: the bare-identifier form reads a further
token. -/
def scanPrimaryKey (p : Parser) : Except Err String × Parser :=
  let (t1, p1) := scanIgnoreWhitespace p
  let (t2, p2) := scanIgnoreWhitespace p1
  if t1.1 ≠ Tok.PRIMARY ∨ t2.1 ≠ Tok.KEY then
    (Except.error (foundExpected (t1.2 ++ t2.2) "PRIMARY KEY"), p2)
  else
    let (t, p3) := scanIgnoreWhitespace p2
    if t.1 = Tok.OPEN_PAREN then
      let (t', p4) := scanParenIdent (unscan p3)
      if t'.1 ≠ Tok.IDENT then (Except.error (foundExpected t'.2 "ident"), p4)
      else (Except.ok t'.2, p4)
    else
      let (t', p4) := scanIdent p3
      if t'.1 ≠ Tok.IDENT then (Except.error (foundExpected t'.2 "ident"), p4)
      else (Except.ok t'.2, p4)

/-- scanKey from parser.go: KEY, an index name, then a column either bare
or parenthesized. -/
def scanKey (p : Parser) : Except Err (String × String) × Parser :=
  let (t, p1) := scanIgnoreWhitespace p
  if t.1 ≠ Tok.KEY then (Except.error (foundExpected t.2 "KEY"), p1)
  else
    let (ti, p2) := scanIgnoreWhitespace p1
    if ti.1 ≠ Tok.IDENT then (Except.error (foundExpected ti.2 "index"), p2)
    else
      let (tc, p3) := scanIgnoreWhitespace p2
      if tc.1 = Tok.IDENT then (Except.ok (ti.2, tc.2), p3)
      else if tc.1 = Tok.OPEN_PAREN then
        let (t', p4) := scanParenIdent (unscan p3)
        if t'.1 ≠ Tok.IDENT then (Except.error (foundExpected t'.2 ""), p4)
        else (Except.ok (ti.2, t'.2), p4)
      else (Except.error (foundExpected tc.2 "ident"), p3)

/-- scanConstraint from parser.go. -/
def scanConstraint (p : Parser) : Except Err Constraint × Parser :=
  let (t, p1) := scanIgnoreWhitespace p
  if t.1 ≠ Tok.CONSTRAINT then (Except.error (foundExpected t.2 "CONSTRAINT"), p1)
  else
    let (tn, p2) := scanIdent p1
    if tn.1 ≠ Tok.IDENT then (Except.error (foundExpected tn.2 "ident"), p2)
    else
      let (t1, p3) := scanIgnoreWhitespace p2
      let (t2, p4) := scanIgnoreWhitespace p3
      if t1.1 ≠ Tok.FOREIGN ∨ t2.1 ≠ Tok.KEY then
        (Except.error (foundExpected (t1.2 ++ t2.2) "FOREIGN KEY"), p4)
      else
        let (tf, p5) := scanParenIdent p4
        if tf.1 ≠ Tok.IDENT then (Except.error (foundExpected tf.2 "ident"), p5)
        else
          let (tr, p6) := scanIgnoreWhitespace p5
          if tr.1 ≠ Tok.REFERENCES then
            (Except.error (foundExpected tr.2 "REFERENCES"), p6)
          else
            let (tt, p7) := scanIdent p6
            if tt.1 ≠ Tok.IDENT then
              (Except.error (foundExpected tt.2 "table name"), p7)
            else
              let (tc, p8) := scanParenIdent p7
              if tc.1 ≠ Tok.IDENT then
                (Except.error (foundExpected tc.2 "column name"), p8)
              else (Except.ok ⟨tn.2, tf.2, tt.2, tc.2⟩, p8)

/-- scanKV from parser.go. -/
def scanKV (p : Parser) : Except Err (String × String) × Parser :=
  let (t, p1) := scanIgnoreWhitespace p
  let (t1, p2) := scanIgnoreWhitespace p1
  let (t2, p3) := scanIgnoreWhitespace p2
  if (t.1 ≠ Tok.IDENT ∧ t.1 ≠ Tok.AUTO_INCREMENT) ∨ t1.1 ≠ Tok.EQUAL ∨
      (t2.1 ≠ Tok.IDENT ∧ t2.1 ≠ Tok.STRING ∧ t2.1 ≠ Tok.SIZE) then
    (Except.error (foundExpected (t.2 ++ t1.2 ++ t2.2) "key=value"), p3)
  else (Except.ok (t.2, t2.2), p3)

/-- The loop of scanExtra in parser.go: key=value pairs until the
terminating semicolon, which is pushed back; a leading DEFAULT before a
pair is consumed as a no-op. -/
def scanExtraLoop (extras : List (String × String)) (p : Parser) :
    Nat → Option (Except Err (List (String × String)) × Parser)
  | 0 => none
  | fuel + 1 =>
    let (t, p1) := scanIgnoreWhitespace p
    if t.1 ≠ Tok.SEMI_COLON then
      let p2 := if t.1 ≠ Tok.DEFAULT then unscan p1 else p1
      match scanKV p2 with
      | (Except.error e, p3) => some (Except.error e, p3)
      | (Except.ok (k, v), p3) => scanExtraLoop (upsert extras k v) p3 fuel
    else some (Except.ok extras, unscan p1)

/-- The inner statement-skipping loop of parse() in parser.go: consume
tokens until a semicolon (continue) or EOF (whole parse yields no table
and no error). -/
def skipStmt (p : Parser) : Nat → Option (Option Parser)
  | 0 => none
  | fuel + 1 =>
    let (t, p1) := scanIgnoreWhitespace p
    if t.1 = Tok.SEMI_COLON then some (some p1)
    else if t.1 = Tok.EOF then some none
    else skipStmt p1 fuel

/-- Outcome of the leading loop of parse(): reach a CREATE keyword, end
cleanly at EOF, or fail. -/
inductive PreOut where
  | toCreate (p : Parser)
  | finished
  | failed (e : Err)
  deriving DecidableEq, Repr

/-- The leading loop of parse() in parser.go: skip DROP/LOCK/UNLOCK
statements, bare semicolons and comment tokens until CREATE or EOF. -/
def parsePre (p : Parser) : Nat → Option PreOut
  | 0 => none
  | fuel + 1 =>
    let (t, p1) := scanIgnoreWhitespace p
    if t.1 = Tok.DROP ∨ t.1 = Tok.LOCK ∨ t.1 = Tok.UNLOCK then
      match skipStmt p1 fuel with
      | none => none
      | some none => some PreOut.finished
      | some (some p2) => parsePre p2 fuel
    else if t.1 = Tok.SEMI_COLON ∨ t.1 = Tok.ANNOT then parsePre p1 fuel
    else if t.1 = Tok.CREATE then some (PreOut.toCreate p1)
    else if t.1 = Tok.EOF then some PreOut.finished
    else some (PreOut.failed ("unexpected token: " ++ t.2))

/-- The item loop of parse() in parser.go (the loop over the body of a
CREATE TABLE), including the CLOSE_PAREN epilogue that reads the optional
extras and the terminating semicolon. -/
def parseItems (tbl : Table) (p : Parser) : Nat → Option (Except Err Table × Parser)
  | 0 => none
  | fuel + 1 =>
    let (t, p1) := scanIgnoreWhitespace p
    match t.1 with
    | Tok.IDENT =>
      match scanColumn (unscan p1) fuel with
      | none => none
      | some (Except.error e, p2) => some (Except.error e, p2)
      | some (Except.ok col, p2) =>
        parseItems { tbl with Columns := upsert tbl.Columns col.Name col } p2 fuel
    | Tok.PRIMARY =>
      match scanPrimaryKey (unscan p1) with
      | (Except.error e, p2) => some (Except.error e, p2)
      | (Except.ok k, p2) => parseItems { tbl with PrimaryKey := k } p2 fuel
    | Tok.UNIQUE =>
      match scanKey p1 with
      | (Except.error e, p2) => some (Except.error e, p2)
      | (Except.ok (k, v), p2) =>
        parseItems { tbl with UniqueKeys := upsert tbl.UniqueKeys k v } p2 fuel
    | Tok.KEY =>
      match scanKey (unscan p1) with
      | (Except.error e, p2) => some (Except.error e, p2)
      | (Except.ok (k, v), p2) =>
        parseItems { tbl with Keys := upsert tbl.Keys k v } p2 fuel
    | Tok.CONSTRAINT =>
      match scanConstraint (unscan p1) with
      | (Except.error e, p2) => some (Except.error e, p2)
      | (Except.ok cos, p2) =>
        parseItems
          { tbl with Constraints := upsert tbl.Constraints cos.ForeignKey cos } p2 fuel
    | Tok.CLOSE_PAREN =>
      let (t2, p2) := scanIgnoreWhitespace p1
      if t2.1 ≠ Tok.SEMI_COLON then
        match scanExtraLoop [] (unscan p2) fuel with
        | none => none
        | some (Except.error e, p3) => some (Except.error e, p3)
        | some (Except.ok extras, p3) => some (Except.ok { tbl with Extras := extras }, p3)
      else some (Except.ok tbl, p2)
    | Tok.COMMA => parseItems tbl p1 fuel
    | Tok.SEMI_COLON => some (Except.ok tbl, p1)
    | _ =>
      some (Except.error
        (foundExpected t.2 "ident or primary or unique or key or constraint"), p1)

/-- parse() from parser.go: one table per call; ok none means the input
ended cleanly with no further table. -/
def parseOne (p : Parser) (fuel : Nat) : Option (Except Err (Option Table) × Parser) :=
  match parsePre p fuel with
  | none => none
  | some (PreOut.failed e) => some (Except.error e, p)
  | some PreOut.finished => some (Except.ok none, p)
  | some (PreOut.toCreate p1) =>
    let (t, p2) := scanIgnoreWhitespace p1
    if t.1 ≠ Tok.TABLE then
      some (Except.error ("found CREATE " ++ t.2 ++ ", expected CREATE TABLE"), p2)
    else
      let (tn, p3) := scanIdent p2
      if tn.1 ≠ Tok.IDENT then
        some (Except.error
          ("found CREATE TABLE " ++ tn.2 ++ ", expected CREATE TABLE ident"), p3)
      else
        let (t2, p4) := scanIgnoreWhitespace p3
        if t2.1 ≠ Tok.OPEN_PAREN then
          some (Except.error (foundExpected t2.2 "("), p4)
        else
          match parseItems (Table.fresh tn.2) p4 fuel with
          | none => none
          | some (Except.error e, p5) => some (Except.error e, p5)
          | some (Except.ok tbl, p5) => some (Except.ok (some tbl), p5)

/-- The loop of Parse() in parser.go, carrying the accumulated schema. -/
def ParseLoop (sch : Schema) (p : Parser) : Nat → Option (Schema × Option Err)
  | 0 => none
  | fuel + 1 =>
    match parseOne p fuel with
    | none => none
    | some (Except.error e, _) => some (sch, some e)
    | some (Except.ok none, _) => some (sch, none)
    | some (Except.ok (some t), p1) => ParseLoop (upsert sch t.Name t) p1 fuel

/-- Parse() from parser.go over a token stream. -/
def Parse (ts : List (Tok × String)) (fuel : Nat) : Option (Schema × Option Err) :=
  ParseLoop [] (mkParser ts) fuel

/-- The sequence of tables the successive successful parse() calls
produce, in order, together with the final outcome.  This is the
observer used to relate an errored Parse run to the tables that were
fully parsed before the failure. -/
def parseTables (p : Parser) : Nat → Option (List Table × Option Err)
  | 0 => none
  | fuel + 1 =>
    match parseOne p fuel with
    | none => none
    | some (Except.error e, _) => some ([], some e)
    | some (Except.ok none, _) => some ([], none)
    | some (Except.ok (some t), p1) =>
      match parseTables p1 fuel with
      | none => none
      | some (ts, oe) => some (t :: ts, oe)

end Parser

/-! ## Scanner lemmas and claims C5, C6 -/

namespace Scanner

/-- The line-comment loop never returns while no newline remains: at end
of input it keeps reading the eof sentinel, which is not a newline. -/
theorem lineCommentLoop_none (fuel : Nat) :
    ∀ s : SState, '\n' ∉ s.rem → lineCommentLoop s fuel = none := by
  induction fuel with
  | zero => intro s _; rfl
  | succ n ih =>
    intro s h
    cases s with
    | mk rem last =>
      cases rem with
      | nil =>
        simp only [lineCommentLoop, read]
        rw [if_neg (by decide)]
        exact ih _ (by simp)
      | cons c r =>
        simp only [lineCommentLoop, read]
        have hc : ¬ (c = '\n') := fun hc => h (by simp [hc])
        rw [if_neg hc]
        exact ih _ (fun hr => h (List.mem_cons_of_mem c hr))

/-- The comment loop runs through star-free characters and stops at the
closing star-slash pair. -/
theorem inlineLoop_through (bs : List Char) :
    ∀ (fuel : Nat) (rest : List Char) (l0 : Option Char),
      '*' ∉ bs → eofc ∉ bs → bs.length + 1 ≤ fuel →
      scanInlineCommentLoop ⟨bs ++ '*' :: '/' :: rest, l0⟩ fuel
        = some (Tok.ANNOT, "", ⟨rest, some '/'⟩) := by
  induction bs with
  | nil =>
    intro fuel rest l0 _ _ hf
    obtain ⟨m, rfl⟩ : ∃ m, fuel = m + 1 := ⟨fuel - 1, by omega⟩
    simp [scanInlineCommentLoop, read, eofc]
  | cons b bs ih =>
    intro fuel rest l0 hstar heof hf
    obtain ⟨m, rfl⟩ : ∃ m, fuel = m + 1 := ⟨fuel - 1, by omega⟩
    have hb1 : b ≠ eofc := by intro h; exact heof (h ▸ List.mem_cons_self b bs)
    have hb2 : b ≠ '*' := by intro h; exact hstar (h ▸ List.mem_cons_self b bs)
    simp only [scanInlineCommentLoop, List.cons_append, read]
    rw [if_neg (by simpa using hb1), if_neg (by simpa using hb2)]
    exact ih m rest (some b) (fun h => hstar (List.mem_cons_of_mem b h))
      (fun h => heof (List.mem_cons_of_mem b h)) (by simpa using Nat.le_of_succ_le_succ hf)

/-- The comment loop hits end of input after star-free characters and
reports ILLEGAL. -/
theorem inlineLoop_trunc (bs : List Char) :
    ∀ (fuel : Nat) (l0 : Option Char),
      '*' ∉ bs → eofc ∉ bs → bs.length + 1 ≤ fuel →
      scanInlineCommentLoop ⟨bs, l0⟩ fuel = some (Tok.ILLEGAL, "", ⟨[], none⟩) := by
  induction bs with
  | nil =>
    intro fuel l0 _ _ hf
    obtain ⟨m, rfl⟩ : ∃ m, fuel = m + 1 := ⟨fuel - 1, by omega⟩
    simp [scanInlineCommentLoop, read]
  | cons b bs ih =>
    intro fuel l0 hstar heof hf
    obtain ⟨m, rfl⟩ : ∃ m, fuel = m + 1 := ⟨fuel - 1, by omega⟩
    have hb1 : b ≠ eofc := by intro h; exact heof (h ▸ List.mem_cons_self b bs)
    have hb2 : b ≠ '*' := by intro h; exact hstar (h ▸ List.mem_cons_self b bs)
    simp only [scanInlineCommentLoop, read]
    rw [if_neg (by simpa using hb1), if_neg (by simpa using hb2)]
    exact ih m (some b) (fun h => hstar (List.mem_cons_of_mem b h))
      (fun h => heof (List.mem_cons_of_mem b h)) (by simpa using Nat.le_of_succ_le_succ hf)

end Scanner

/-- C5: the scanner's line-comment path does not terminate on end of
input.  For every input whose remaining characters begin with a double
dash and contain no later newline, Scan answers none at every fuel: the
Go loop, which exits only on a newline and never checks for end of
stream, runs forever on such inputs. -/
theorem claim_C5_line_comment_diverges (body : List Char) (l0 : Option Char) (fuel : Nat)
    (h : '\n' ∉ body) :
    Scanner.Scan ⟨'-' :: '-' :: body, l0⟩ fuel = none := by
  have h1 : Scanner.Scan ⟨'-' :: '-' :: body, l0⟩ fuel
      = Scanner.lineCommentLoop ⟨body, some '-'⟩ fuel := by
    simp [Scanner.Scan, Scanner.read, Scanner.scanWhitespace, isWhitespace, isLetter,
      isDigit, eofc]
  rw [h1]
  exact Scanner.lineCommentLoop_none fuel _ (by simpa using h)

/-- Witness for C5 at the concrete unterminated comment input. -/
theorem claim_C5_witness :
    Scanner.Scan ⟨['-', '-', ' ', 'h', 'i'], none⟩ 1000 = none :=
  claim_C5_line_comment_diverges [' ', 'h', 'i'] none 1000 (by decide)

/-- C6 counterexample: the complete block comment with empty body, the
four characters slash star star slash, does not scan to an ANNOT token.
The second pushback before scanInlineComment is a no-op, so the comment
loop starts at the opening star, pairs it with the character after it
(here the closing star), misses the close and runs into end of input,
returning ILLEGAL. -/
theorem claim_C6_counterexample :
    Scanner.Scan ⟨['/', '*', '*', '/'], none⟩ 99
      = some (Tok.ILLEGAL, "", ⟨[], none⟩) := by
  decide

/-- C6 amended: a block comment scans to an ANNOT token with empty
literal, consuming exactly through the closing star-slash, whenever its
body is nonempty, star-free, does not begin with a slash and contains no
NUL rune; and end of input before the close (a star-free unterminated
comment) yields ILLEGAL.  (The empty body is excluded: see the
counterexample.) -/
theorem claim_C6_amended :
    (∀ (b : Char) (bs rest : List Char) (l0 : Option Char) (fuel : Nat),
      '*' ∉ b :: bs → eofc ∉ b :: bs → b ≠ '/' → bs.length + 3 ≤ fuel →
      Scanner.Scan ⟨'/' :: '*' :: ((b :: bs) ++ '*' :: '/' :: rest), l0⟩ fuel
        = some (Tok.ANNOT, "", ⟨rest, some '/'⟩)) ∧
    (∀ (body : List Char) (l0 : Option Char) (fuel : Nat),
      '*' ∉ body → eofc ∉ body → body.head? ≠ some '/' → body.length + 3 ≤ fuel →
      Scanner.Scan ⟨'/' :: '*' :: body, l0⟩ fuel
        = some (Tok.ILLEGAL, "", ⟨[], none⟩)) := by
  constructor
  · intro b bs rest l0 fuel hstar heof hb hf
    have h1 : Scanner.Scan ⟨'/' :: '*' :: ((b :: bs) ++ '*' :: '/' :: rest), l0⟩ fuel
        = Scanner.scanInlineCommentLoop
            ⟨'*' :: ((b :: bs) ++ '*' :: '/' :: rest), none⟩ fuel := by
      simp [Scanner.Scan, Scanner.read, Scanner.unread, isWhitespace, isLetter,
        isDigit, eofc]
    rw [h1]
    obtain ⟨m, rfl⟩ : ∃ m, fuel = m + 1 := ⟨fuel - 1, by omega⟩
    have hb1 : b ≠ eofc := fun h => heof (by simp [h])
    simp only [Scanner.scanInlineCommentLoop, Scanner.read, List.cons_append]
    rw [if_pos trivial, if_neg hb]
    exact Scanner.inlineLoop_through bs m rest (some b)
      (fun h => hstar (List.mem_cons_of_mem b h))
      (fun h => heof (List.mem_cons_of_mem b h)) (by omega)
  · intro body l0 fuel hstar heof hhead hf
    have h1 : Scanner.Scan ⟨'/' :: '*' :: body, l0⟩ fuel
        = Scanner.scanInlineCommentLoop ⟨'*' :: body, none⟩ fuel := by
      simp [Scanner.Scan, Scanner.read, Scanner.unread, isWhitespace, isLetter,
        isDigit, eofc]
    rw [h1]
    obtain ⟨m, rfl⟩ : ∃ m, fuel = m + 1 := ⟨fuel - 1, by omega⟩
    cases body with
    | nil =>
      simp only [Scanner.scanInlineCommentLoop, Scanner.read]
      rw [if_pos trivial, if_neg (show ¬ (eofc = '/') by decide)]
      exact Scanner.inlineLoop_trunc [] m none (by simp) (by simp) (by omega)
    | cons b bs =>
      have hb : ¬ (b = '/') := by
        intro h; exact hhead (by simp [h])
      simp only [Scanner.scanInlineCommentLoop, Scanner.read]
      rw [if_pos trivial, if_neg hb]
      exact Scanner.inlineLoop_trunc bs m (some b)
        (fun h => hstar (List.mem_cons_of_mem b h))
        (fun h => heof (List.mem_cons_of_mem b h)) (by simp at hf ⊢; omega)

/-- Witness for the amended C6 at concrete comments: the five-character
comment slash star space star slash scans to ANNOT, and the truncated
slash star space hits end of input as ILLEGAL. -/
theorem claim_C6_amended_witness :
    Scanner.Scan ⟨['/', '*', ' ', '*', '/', 'x'], none⟩ 30
      = some (Tok.ANNOT, "", ⟨['x'], some '/'⟩) ∧
    Scanner.Scan ⟨['/', '*', ' '], none⟩ 30 = some (Tok.ILLEGAL, "", ⟨[], none⟩) :=
  ⟨claim_C6_amended.1 ' ' [] ['x'] none 30 (by decide) (by decide) (by decide)
      (by decide),
    claim_C6_amended.2 [' '] none 30 (by decide) (by decide) (by decide) (by decide)⟩

/-! ## Parser stepping lemmas -/

namespace Parser

@[simp] theorem scan_fresh_cons (t : Tok × String) (rest : List (Tok × String))
    (b : Tok × String) : scan ⟨t :: rest, b, 0⟩ = (t, ⟨rest, t, 0⟩) := by
  simp [scan]

@[simp] theorem scan_fresh_nil (b : Tok × String) :
    scan ⟨[], b, 0⟩ = ((Tok.EOF, "EOF"), ⟨[], (Tok.EOF, "EOF"), 0⟩) := by
  simp [scan]

@[simp] theorem scan_replay (toks : List (Tok × String)) (b : Tok × String) :
    scan ⟨toks, b, 1⟩ = (b, ⟨toks, b, 0⟩) := by
  simp [scan]

/-- scanIgnoreWhitespace at a fresh state whose head token is neither WS
nor ANNOT returns that head token. -/
theorem sIW_sig (t : Tok × String) (rest : List (Tok × String)) (b : Tok × String)
    (h1 : t.1 ≠ Tok.WS) (h2 : t.1 ≠ Tok.ANNOT) :
    scanIgnoreWhitespace ⟨t :: rest, b, 0⟩ = (t, ⟨rest, t, 0⟩) := by
  simp [scanIgnoreWhitespace, h1, h2]

/-- scanIgnoreWhitespace at a fresh state beginning with a WS token
returns the following token, whatever it is. -/
theorem sIW_ws (l : String) (t : Tok × String) (rest : List (Tok × String))
    (b : Tok × String) :
    scanIgnoreWhitespace ⟨(Tok.WS, l) :: t :: rest, b, 0⟩ = (t, ⟨rest, t, 0⟩) := by
  simp [scanIgnoreWhitespace]

/-- scanIgnoreWhitespace with a pushed-back non-ignorable token replays
that token. -/
theorem sIW_replay (toks : List (Tok × String)) (b : Tok × String)
    (h1 : b.1 ≠ Tok.WS) (h2 : b.1 ≠ Tok.ANNOT) :
    scanIgnoreWhitespace ⟨toks, b, 1⟩ = (b, ⟨toks, b, 0⟩) := by
  simp [scanIgnoreWhitespace, h1, h2]

end Parser

/-! ## Claim C1: scanIgnoreWhitespace -/

/-- C1 counterexample: a WS token immediately followed by an ANNOT
(annotation) token is NOT fully skipped: scanIgnoreWhitespace performs at
most one extra scan, so here it returns the annotation token itself, and
a grammar rule calling it receives a comment token. -/
theorem claim_C1_counterexample :
    Parser.scanIgnoreWhitespace (mkParser [(Tok.WS, " "), (Tok.ANNOT, ""), (Tok.IDENT, "x")])
      = ((Tok.ANNOT, ""), ⟨[(Tok.IDENT, "x")], (Tok.ANNOT, ""), 0⟩) := by
  decide

/-- C1 amended: scanIgnoreWhitespace discards at most one token.  A
fresh head token that is neither WS nor the annotation token is returned
as is; when the head token is WS or an annotation, the next token from
the stream is returned unconditionally - even when that next token is
itself a WS or annotation token. -/
theorem claim_C1_amended :
    (∀ (t : Tok × String) (rest : List (Tok × String)),
      t.1 ≠ Tok.WS → t.1 ≠ Tok.ANNOT →
      Parser.scanIgnoreWhitespace (mkParser (t :: rest)) = (t, ⟨rest, t, 0⟩)) ∧
    (∀ (t1 t2 : Tok × String) (rest : List (Tok × String)),
      t1.1 = Tok.WS ∨ t1.1 = Tok.ANNOT →
      Parser.scanIgnoreWhitespace (mkParser (t1 :: t2 :: rest)) = (t2, ⟨rest, t2, 0⟩)) := by
  constructor
  · intro t rest h1 h2
    exact Parser.sIW_sig t rest _ h1 h2
  · intro t1 t2 rest h
    simp [Parser.scanIgnoreWhitespace, mkParser, h]

/-- Witness for the amended C1: one significant head token is returned
directly; a WS head causes exactly the next token (here an annotation
token) to be returned. -/
theorem claim_C1_amended_witness :
    Parser.scanIgnoreWhitespace (mkParser [(Tok.CREATE, "CREATE")])
      = ((Tok.CREATE, "CREATE"), ⟨[], (Tok.CREATE, "CREATE"), 0⟩) ∧
    Parser.scanIgnoreWhitespace (mkParser [(Tok.WS, " "), (Tok.ANNOT, ""), (Tok.IDENT, "x")])
      = ((Tok.ANNOT, ""), ⟨[(Tok.IDENT, "x")], (Tok.ANNOT, ""), 0⟩) :=
  ⟨claim_C1_amended.1 (Tok.CREATE, "CREATE") [] (by decide) (by decide),
    claim_C1_amended.2 (Tok.WS, " ") (Tok.ANNOT, "") [(Tok.IDENT, "x")] (Or.inl rfl)⟩

/-! ## Claim C10: determinism -/

/-- C10: parsing is deterministic.  Two independent Parse runs, each over
its own freshly initialized parser state (own pushback buffer, own
accumulating schema) on the same token stream, return equal schemas and
equal error outcomes; the result is a function of the input stream alone. -/
theorem claim_C10_deterministic (ts : List (Tok × String)) (fuel : Nat)
    (p1 p2 : Parser) (h1 : p1 = mkParser ts) (h2 : p2 = mkParser ts) :
    Parser.ParseLoop [] p1 fuel = Parser.ParseLoop [] p2 fuel ∧
    Parser.Parse ts fuel = Parser.ParseLoop [] p1 fuel := by
  subst h1; subst h2; exact ⟨rfl, rfl⟩

/-- Witness for C10 at a concrete one-statement stream. -/
theorem claim_C10_witness :
    Parser.ParseLoop [] (mkParser [(Tok.CREATE, "CREATE")]) 9
      = Parser.ParseLoop [] (mkParser [(Tok.CREATE, "CREATE")]) 9 ∧
    Parser.Parse [(Tok.CREATE, "CREATE")] 9
      = Parser.ParseLoop [] (mkParser [(Tok.CREATE, "CREATE")]) 9 :=
  claim_C10_deterministic [(Tok.CREATE, "CREATE")] 9 _ _ rfl rfl

/-! ## Claim C4: unexpected leading tokens in the item list -/

/-- C4 counterexample: a semicolon appearing in the item list before the
closing parenthesis does NOT produce a parse error: parse silently
finalizes and returns the table, and the whole Parse run of the input
CREATE TABLE t ( ; succeeds with no error and one committed table. -/
theorem claim_C4_counterexample :
    Scanner.tokenize (mkScan "CREATE TABLE `t` ( ;") 60
      = some [(Tok.CREATE, "CREATE"), (Tok.WS, " "), (Tok.TABLE, "TABLE"),
          (Tok.WS, " "), (Tok.IDENT, "t"), (Tok.WS, " "), (Tok.OPEN_PAREN, "("),
          (Tok.WS, " "), (Tok.SEMI_COLON, ";")] ∧
    Parser.Parse [(Tok.CREATE, "CREATE"), (Tok.WS, " "), (Tok.TABLE, "TABLE"),
          (Tok.WS, " "), (Tok.IDENT, "t"), (Tok.WS, " "), (Tok.OPEN_PAREN, "("),
          (Tok.WS, " "), (Tok.SEMI_COLON, ";")] 20
      = some ([("t", Table.fresh "t")], none) := by
  exact ⟨by decide, by decide⟩

/-- C4 amended: inside the item list of a CREATE TABLE body, every
leading token other than an identifier, PRIMARY, UNIQUE, KEY, CONSTRAINT,
COMMA, CLOSE_PAREN - or SEMI_COLON, which silently finalizes the table -
(and other than the transparently handled WS/annotation tokens) makes
parse return a parse error whose message names the unexpected token's
literal. -/
theorem claim_C4_amended (tbl : Table) (t : Tok) (l : String)
    (rest : List (Tok × String)) (fuel : Nat)
    (hmem : t ∉ [Tok.IDENT, Tok.PRIMARY, Tok.UNIQUE, Tok.KEY, Tok.CONSTRAINT,
      Tok.CLOSE_PAREN, Tok.COMMA, Tok.SEMI_COLON, Tok.WS, Tok.ANNOT]) :
    Parser.parseItems tbl (mkParser ((t, l) :: rest)) (fuel + 1)
      = some (Except.error
          (foundExpected l "ident or primary or unique or key or constraint"),
        ⟨rest, (t, l), 0⟩) := by
  cases t <;>
    simp_all [Parser.parseItems, Parser.scanIgnoreWhitespace, Parser.scan, mkParser]

/-- Witness for the amended C4: an EQUAL token leading an item is
rejected with an error naming its literal. -/
theorem claim_C4_amended_witness :
    Parser.parseItems (Table.fresh "t") (mkParser [(Tok.EQUAL, "=")]) 8
      = some (Except.error
          (foundExpected "=" "ident or primary or unique or key or constraint"),
        ⟨[], (Tok.EQUAL, "="), 0⟩) :=
  claim_C4_amended (Table.fresh "t") Tok.EQUAL "=" [] 7 (by decide)

/-! ## Token renderings of well-formed column clauses

A canonical token-level rendering of the surface forms the grammar
accepts: every significant token is preceded by one whitespace token,
exactly as the scanner produces for space-separated SQL text. -/

namespace Render

/-- One significant token, preceded by a single WS separator token. -/
def w (t : Tok × String) : List (Tok × String) := [(Tok.WS, " "), t]

@[simp] theorem w_def (t : Tok × String) : w t = [(Tok.WS, " "), t] := rfl

/-- The column clauses of the grammar of scanColumn. -/
inductive Clause where
  | cdefaultNull
  | cdefaultTs
  | cdefaultStr (s : String)
  | cnull
  | cnotNull
  | ccomment (s : String)
  | cautoIncr
  deriving DecidableEq, Repr

/-- Token rendering of one clause. -/
def renderClause : Clause → List (Tok × String)
  | Clause.cdefaultNull => w (Tok.DEFAULT, "DEFAULT") ++ w (Tok.NULL, "NULL")
  | Clause.cdefaultTs =>
    w (Tok.DEFAULT, "DEFAULT") ++ w (Tok.CURRENT_TIMESTAMP, "CURRENT_TIMESTAMP")
  | Clause.cdefaultStr s => w (Tok.DEFAULT, "DEFAULT") ++ w (Tok.STRING, s)
  | Clause.cnull => w (Tok.NULL, "NULL")
  | Clause.cnotNull => w (Tok.NOT, "NOT") ++ w (Tok.NULL, "NULL")
  | Clause.ccomment s => w (Tok.COMMENT, "COMMENT") ++ w (Tok.STRING, s)
  | Clause.cautoIncr => w (Tok.AUTO_INCREMENT, "AUTO_INCREMENT")

/-- Token rendering of a clause list. -/
def renderClauses : List Clause → List (Tok × String)
  | [] => []
  | c :: cs => renderClause c ++ renderClauses cs

/-- The effect one clause has on the column under construction,
mirroring the switch of scanColumn. -/
def applyClause (col : Column) : Clause → Column
  | Clause.cdefaultNull => { col with Default := some "null", Nullable := true }
  | Clause.cdefaultTs =>
    { col with Default := some "current_timestamp", Nullable := false }
  | Clause.cdefaultStr s => { col with Default := some s, Nullable := decide (s = "null") }
  | Clause.cnull => { col with Nullable := true }
  | Clause.cnotNull => { col with Nullable := false }
  | Clause.ccomment s => { col with Comment := s }
  | Clause.cautoIncr => { col with AutoIncr := true }

/-- Folding a clause list over a column. -/
def applyClauses (col : Column) (cs : List Clause) : Column :=
  cs.foldl applyClause col

/-- Token rendering of the type position: a data-type keyword, optionally
followed by a parenthesized size literal. -/
def renderType (ty : Tok) (tyLit : String) : Option String → List (Tok × String)
  | none => w (ty, tyLit)
  | some szLit =>
    w (ty, tyLit) ++ w (Tok.OPEN_PAREN, "(") ++ w (Tok.SIZE, szLit) ++
      w (Tok.CLOSE_PAREN, ")")

/-- The column scanColumn builds before entering its clause loop. -/
def colBase (name : String) (ty : Tok) (sz : Option String) : Column :=
  { Column.empty with
    Name := name
    Typ := Parser.typeName ty
    Size := match sz with | none => 0 | some s => Parser.atoiModel s }

end Render

namespace Parser

theorem scanDefault_render_null (rest : List (Tok × String)) :
    scanDefault ⟨(Tok.WS, " ") :: (Tok.NULL, "NULL") :: rest, (Tok.DEFAULT, "DEFAULT"), 1⟩
      = (Except.ok "null", ⟨rest, (Tok.NULL, "NULL"), 0⟩) := by
  simp [scanDefault, scanIgnoreWhitespace, scan]

theorem scanDefault_render_ts (rest : List (Tok × String)) :
    scanDefault ⟨(Tok.WS, " ") :: (Tok.CURRENT_TIMESTAMP, "CURRENT_TIMESTAMP") :: rest,
        (Tok.DEFAULT, "DEFAULT"), 1⟩
      = (Except.ok "current_timestamp",
          ⟨rest, (Tok.CURRENT_TIMESTAMP, "CURRENT_TIMESTAMP"), 0⟩) := by
  simp [scanDefault, scanIgnoreWhitespace, scan]

theorem scanDefault_render_str (s : String) (rest : List (Tok × String)) :
    scanDefault ⟨(Tok.WS, " ") :: (Tok.STRING, s) :: rest, (Tok.DEFAULT, "DEFAULT"), 1⟩
      = (Except.ok s, ⟨rest, (Tok.STRING, s), 0⟩) := by
  simp [scanDefault, scanIgnoreWhitespace, scan]

theorem scanColumnLoop_render (cs : List Render.Clause) :
    ∀ (fuel : Nat) (col : Column) (term : Tok × String) (rest : List (Tok × String))
      (b : Tok × String),
      term.1 = Tok.COMMA ∨ term.1 = Tok.CLOSE_PAREN →
      cs.length + 1 ≤ fuel →
      scanColumnLoop col
          ⟨Render.renderClauses cs ++ (Tok.WS, " ") :: term :: rest, b, 0⟩ fuel
        = some (Except.ok (Render.applyClauses col cs), ⟨rest, term, 1⟩) := by
  induction cs with
  | nil =>
    intro fuel col term rest b hterm hf
    obtain ⟨m, rfl⟩ : ∃ m, fuel = m + 1 := ⟨fuel - 1, by omega⟩
    obtain ⟨tt, tl⟩ := term
    simp only [Render.renderClauses, List.nil_append, scanColumnLoop]
    rw [sIW_ws]
    rcases hterm with h | h <;> simp at h <;> subst h <;>
      simp [Render.applyClauses, unscan]
  | cons c cs ih =>
    intro fuel col term rest b hterm hf
    obtain ⟨m, rfl⟩ : ∃ m, fuel = m + 1 := ⟨fuel - 1, by omega⟩
    have hm : cs.length + 1 ≤ m := by
      simp [List.length_cons] at hf; omega
    cases c with
    | cnull =>
      simp only [Render.renderClauses, Render.renderClause, Render.w_def,
        List.cons_append, List.append_assoc, List.nil_append, scanColumnLoop]
      rw [sIW_ws]
      simp only []
      rw [ih m _ term rest _ hterm hm]
      simp [Render.applyClauses, Render.applyClause]
    | cautoIncr =>
      simp only [Render.renderClauses, Render.renderClause, Render.w_def,
        List.cons_append, List.append_assoc, List.nil_append, scanColumnLoop]
      rw [sIW_ws]
      simp only []
      rw [ih m _ term rest _ hterm hm]
      simp [Render.applyClauses, Render.applyClause]
    | cnotNull =>
      simp only [Render.renderClauses, Render.renderClause, Render.w_def,
        List.cons_append, List.append_assoc, List.nil_append, scanColumnLoop]
      rw [sIW_ws]
      simp only []
      rw [sIW_ws]
      simp only []
      rw [ih m _ term rest _ hterm hm]
      simp [Render.applyClauses, Render.applyClause]
    | ccomment s =>
      simp only [Render.renderClauses, Render.renderClause, Render.w_def,
        List.cons_append, List.append_assoc, List.nil_append, scanColumnLoop]
      rw [sIW_ws]
      simp only []
      rw [sIW_ws]
      simp only []
      rw [ih m _ term rest _ hterm hm]
      simp [Render.applyClauses, Render.applyClause]
    | cdefaultNull =>
      simp only [Render.renderClauses, Render.renderClause, Render.w_def,
        List.cons_append, List.append_assoc, List.nil_append, scanColumnLoop]
      rw [sIW_ws]
      simp only [unscan]
      rw [scanDefault_render_null]
      simp only []
      rw [ih m _ term rest _ hterm hm]
      simp [Render.applyClauses, Render.applyClause]
    | cdefaultTs =>
      simp only [Render.renderClauses, Render.renderClause, Render.w_def,
        List.cons_append, List.append_assoc, List.nil_append, scanColumnLoop]
      rw [sIW_ws]
      simp only [unscan]
      rw [scanDefault_render_ts]
      simp only []
      rw [ih m _ term rest _ hterm hm]
      simp [Render.applyClauses, Render.applyClause]
    | cdefaultStr s =>
      simp only [Render.renderClauses, Render.renderClause, Render.w_def,
        List.cons_append, List.append_assoc, List.nil_append, scanColumnLoop]
      rw [sIW_ws]
      simp only [unscan]
      rw [scanDefault_render_str]
      simp only []
      rw [ih m _ term rest _ hterm hm]
      simp [Render.applyClauses, Render.applyClause]

end Parser

namespace Parser

theorem scanIdent_replay_ident (name : String) (tail : List (Tok × String)) :
    scanIdent ⟨tail, (Tok.IDENT, name), 1⟩
      = ((Tok.IDENT, name), ⟨tail, (Tok.IDENT, name), 0⟩) := by
  simp [scanIdent, scanIgnoreWhitespace, scan]

theorem scanType_render_some (ty : Tok) (tyLit szLit : String)
    (tail : List (Tok × String)) (b : Tok × String) (hty : isTypeTok ty = true) :
    scanType ⟨(Tok.WS, " ") :: (ty, tyLit) :: (Tok.WS, " ") :: (Tok.OPEN_PAREN, "(") ::
        (Tok.WS, " ") :: (Tok.SIZE, szLit) :: (Tok.WS, " ") :: (Tok.CLOSE_PAREN, ")") ::
        tail, b, 0⟩
      = (Except.ok (typeName ty, atoiModel szLit), ⟨tail, (Tok.CLOSE_PAREN, ")"), 0⟩) := by
  simp [scanType, scanIgnoreWhitespace, scan, hty]

theorem scanType_render_none (ty : Tok) (tyLit : String) (X : Tok × String)
    (tail : List (Tok × String)) (b : Tok × String) (hty : isTypeTok ty = true)
    (hX : X.1 ≠ Tok.OPEN_PAREN) :
    scanType ⟨(Tok.WS, " ") :: (ty, tyLit) :: (Tok.WS, " ") :: X :: tail, b, 0⟩
      = (Except.ok (typeName ty, 0), ⟨tail, X, 1⟩) := by
  simp [scanType, scanIgnoreWhitespace, scan, hty, hX, unscan]

end Parser

namespace Parser

theorem scanColumnLoop_entry (col : Column) (p q : Parser) (fuel : Nat)
    (h : scanIgnoreWhitespace p = scanIgnoreWhitespace q) :
    scanColumnLoop col p (fuel + 1) = scanColumnLoop col q (fuel + 1) := by
  simp only [scanColumnLoop, h]

theorem sIW_replay_eq_ws (X : Tok × String) (tail : List (Tok × String))
    (b : Tok × String) (h1 : X.1 ≠ Tok.WS) (h2 : X.1 ≠ Tok.ANNOT) :
    scanIgnoreWhitespace ⟨tail, X, 1⟩
      = scanIgnoreWhitespace ⟨(Tok.WS, " ") :: X :: tail, b, 0⟩ := by
  rw [sIW_replay _ _ h1 h2, sIW_ws]

end Parser

namespace Render

def clauseHead : Clause → (Tok × String)
  | Clause.cdefaultNull => (Tok.DEFAULT, "DEFAULT")
  | Clause.cdefaultTs => (Tok.DEFAULT, "DEFAULT")
  | Clause.cdefaultStr _ => (Tok.DEFAULT, "DEFAULT")
  | Clause.cnull => (Tok.NULL, "NULL")
  | Clause.cnotNull => (Tok.NOT, "NOT")
  | Clause.ccomment _ => (Tok.COMMENT, "COMMENT")
  | Clause.cautoIncr => (Tok.AUTO_INCREMENT, "AUTO_INCREMENT")

def clauseTail : Clause → List (Tok × String)
  | Clause.cdefaultNull => w (Tok.NULL, "NULL")
  | Clause.cdefaultTs => w (Tok.CURRENT_TIMESTAMP, "CURRENT_TIMESTAMP")
  | Clause.cdefaultStr s => w (Tok.STRING, s)
  | Clause.cnull => []
  | Clause.cnotNull => w (Tok.NULL, "NULL")
  | Clause.ccomment s => w (Tok.STRING, s)
  | Clause.cautoIncr => []

theorem renderClause_shape (c : Clause) :
    renderClause c = (Tok.WS, " ") :: clauseHead c :: clauseTail c := by
  cases c <;> rfl

theorem clauseHead_sig (c : Clause) :
    (clauseHead c).1 ≠ Tok.WS ∧ (clauseHead c).1 ≠ Tok.ANNOT ∧
      (clauseHead c).1 ≠ Tok.OPEN_PAREN := by
  cases c <;> simp [clauseHead]

end Render

namespace Parser

theorem scanColumn_render (name tyLit : String) (ty : Tok) (sz : Option String)
    (cs : List Render.Clause) (term : Tok × String) (rest : List (Tok × String))
    (fuel : Nat) (hty : isTypeTok ty = true)
    (hterm : term.1 = Tok.COMMA ∨ term.1 = Tok.CLOSE_PAREN)
    (hf : cs.length + 2 ≤ fuel) :
    scanColumn ⟨Render.renderType ty tyLit sz ++ Render.renderClauses cs ++
        (Tok.WS, " ") :: term :: rest, (Tok.IDENT, name), 1⟩ fuel
      = some (Except.ok (Render.applyClauses (Render.colBase name ty sz) cs),
          ⟨rest, term, 1⟩) := by
  obtain ⟨m, rfl⟩ : ∃ m, fuel = m + 1 := ⟨fuel - 1, by omega⟩
  have htermws : term.1 ≠ Tok.WS := by rcases hterm with h | h <;> rw [h] <;> decide
  have htermann : term.1 ≠ Tok.ANNOT := by rcases hterm with h | h <;> rw [h] <;> decide
  have htermop : term.1 ≠ Tok.OPEN_PAREN := by rcases hterm with h | h <;> rw [h] <;> decide
  simp only [scanColumn]
  rw [scanIdent_replay_ident]
  simp only [ne_eq, not_true, if_false, reduceCtorEq, reduceIte]
  cases sz with
  | some szLit =>
    simp only [Render.renderType, Render.w_def, List.cons_append, List.append_assoc,
      List.nil_append]
    rw [scanType_render_some _ _ _ _ _ hty]
    dsimp only
    exact scanColumnLoop_render cs (m + 1) _ term rest _ hterm (by omega)
  | none =>
    cases cs with
    | nil =>
      simp only [Render.renderType, Render.renderClauses, Render.w_def,
        List.cons_append, List.append_assoc, List.nil_append]
      rw [scanType_render_none _ _ _ _ _ hty htermop]
      dsimp only
      rw [scanColumnLoop_entry _ _ ⟨(Tok.WS, " ") :: term :: rest, (Tok.ILLEGAL, ""), 0⟩
        m (sIW_replay_eq_ws term rest _ htermws htermann)]
      exact scanColumnLoop_render [] (m + 1) _ term rest _ hterm (by omega)
    | cons c cs' =>
      obtain ⟨hc1, hc2, hc3⟩ := Render.clauseHead_sig c
      simp only [Render.renderType, Render.renderClauses, Render.renderClause_shape,
        Render.w_def, List.cons_append, List.append_assoc, List.nil_append]
      rw [scanType_render_none _ _ _ _ _ hty hc3]
      dsimp only
      rw [scanColumnLoop_entry _ _ ⟨(Tok.WS, " ") :: Render.clauseHead c ::
          (Render.clauseTail c ++ (Render.renderClauses cs' ++ (Tok.WS, " ") :: term :: rest)),
          (Tok.ILLEGAL, ""), 0⟩ m (sIW_replay_eq_ws _ _ _ hc1 hc2)]
      have h2 := scanColumnLoop_render (c :: cs') (m + 1) (Render.colBase name ty none)
        term rest (Tok.ILLEGAL, "") hterm (by simp at hf ⊢; omega)
      simp only [Render.renderClauses, Render.renderClause_shape, List.cons_append,
        List.append_assoc] at h2
      exact h2

end Parser

namespace Render

/-- How one clause updates the nullability flag, starting from the Go
zero value false: a standalone NULL sets it, NOT NULL clears it, and a
DEFAULT clause sets it exactly when the stored default text is "null". -/
def nullStep (b : Bool) : Clause → Bool
  | Clause.cdefaultNull => true
  | Clause.cdefaultTs => false
  | Clause.cdefaultStr s => decide (s = "null")
  | Clause.cnull => true
  | Clause.cnotNull => false
  | Clause.ccomment _ => b
  | Clause.cautoIncr => b

theorem applyClauses_nullable (cs : List Clause) :
    ∀ col : Column, (applyClauses col cs).Nullable = cs.foldl nullStep col.Nullable := by
  induction cs with
  | nil => intro col; rfl
  | cons c cs ih =>
    intro col
    simp only [applyClauses, List.foldl_cons] at ih ⊢
    rw [ih (applyClause col c)]
    cases c <;> rfl

end Render

/-! ## Claim C2: default nullability of scanColumn -/

/-- C2 counterexample: a column definition with no clauses at all comes
back with Nullable equal to false, not true: the Go zero value of the
freshly allocated Column is never flipped when no NULL-related clause
appears.  Full pipeline on CREATE TABLE t with a bare int column. -/
theorem claim_C2_counterexample :
    (Scanner.tokenize (mkScan "CREATE TABLE `t` (`c` int);") 80).map
        (fun ts => Parser.Parse ts 30)
      = some (some ([("t",
          ⟨"t", [("c", ⟨"c", "int", 0, none, "", false, false⟩)],
            "", [], [], [], []⟩)], none)) := by
  decide

/-- C2 amended: for every successfully parsed rendered column
definition, Nullable is FALSE by default (false when no nullability
clause occurs, in particular for a definition with no clauses at all),
becomes true after a standalone NULL clause or a DEFAULT whose stored
value is the null marker, false after NOT NULL or a DEFAULT with any
other stored value; the last such clause wins. -/
theorem claim_C2_amended (name tyLit : String) (ty : Tok) (sz : Option String)
    (cs : List Render.Clause) (term : Tok × String) (rest : List (Tok × String))
    (fuel : Nat) (hty : Parser.isTypeTok ty = true)
    (hterm : term.1 = Tok.COMMA ∨ term.1 = Tok.CLOSE_PAREN)
    (hf : cs.length + 2 ≤ fuel) :
    Parser.scanColumn ⟨Render.renderType ty tyLit sz ++ Render.renderClauses cs ++
        (Tok.WS, " ") :: term :: rest, (Tok.IDENT, name), 1⟩ fuel
      = some (Except.ok (Render.applyClauses (Render.colBase name ty sz) cs),
          ⟨rest, term, 1⟩) ∧
    (Render.applyClauses (Render.colBase name ty sz) cs).Nullable
      = cs.foldl Render.nullStep false := by
  refine ⟨Parser.scanColumn_render name tyLit ty sz cs term rest fuel hty hterm hf, ?_⟩
  rw [Render.applyClauses_nullable]
  rfl

/-- Witness for the amended C2: a clause-free int column scans
successfully and its Nullable flag is false. -/
theorem claim_C2_amended_witness :
    Parser.scanColumn ⟨Render.renderType Tok.INT "int" none ++ Render.renderClauses [] ++
        (Tok.WS, " ") :: (Tok.COMMA, ",") :: [], (Tok.IDENT, "c"), 1⟩ 7
      = some (Except.ok (Render.applyClauses (Render.colBase "c" Tok.INT none) []),
          ⟨[], (Tok.COMMA, ","), 1⟩) ∧
    (Render.applyClauses (Render.colBase "c" Tok.INT none) []).Nullable
      = List.foldl Render.nullStep false [] :=
  claim_C2_amended "c" "int" Tok.INT none [] (Tok.COMMA, ",") [] 7 (by decide)
    (Or.inl rfl) (by decide)

/-! ## Claim C9: DEFAULT clauses and nullability -/

/-- C9 counterexample: a DEFAULT clause whose value is the quoted string
null does NOT set Nullable to false: scanColumn stores the raw string
and compares it to "null", so DEFAULT with the string literal 'null'
sets Nullable to true.  Full pipeline shown. -/
theorem claim_C9_counterexample :
    (Scanner.tokenize (mkScan "CREATE TABLE `t` (`c` varchar(5) NULL DEFAULT 'null');") 120).map
        (fun ts => Parser.Parse ts 40)
      = some (some ([("t",
          ⟨"t", [("c", ⟨"c", "varchar", 5, some "null", "", true, false⟩)],
            "", [], [], [], []⟩)], none)) := by
  decide

/-- C9 amended: every DEFAULT clause overwrites Nullable with the test
(stored default value = "null"): a trailing DEFAULT with a quoted string
s yields Nullable = decide (s = "null") - false for every string other
than "null" but true for the quoted string 'null' - and a trailing
DEFAULT CURRENT_TIMESTAMP yields false, in both cases regardless of any
earlier standalone NULL clause. -/
theorem claim_C9_amended (name tyLit : String) (ty : Tok) (sz : Option String)
    (cs : List Render.Clause) (s : String) (term : Tok × String)
    (rest : List (Tok × String)) (fuel : Nat) (hty : Parser.isTypeTok ty = true)
    (hterm : term.1 = Tok.COMMA ∨ term.1 = Tok.CLOSE_PAREN)
    (hf : cs.length + 3 ≤ fuel) :
    (Parser.scanColumn ⟨Render.renderType ty tyLit sz ++
        Render.renderClauses (cs ++ [Render.Clause.cdefaultStr s]) ++
        (Tok.WS, " ") :: term :: rest, (Tok.IDENT, name), 1⟩ fuel
      = some (Except.ok (Render.applyClauses (Render.colBase name ty sz)
          (cs ++ [Render.Clause.cdefaultStr s])), ⟨rest, term, 1⟩) ∧
    (Render.applyClauses (Render.colBase name ty sz)
        (cs ++ [Render.Clause.cdefaultStr s])).Nullable = decide (s = "null")) ∧
    (Parser.scanColumn ⟨Render.renderType ty tyLit sz ++
        Render.renderClauses (cs ++ [Render.Clause.cdefaultTs]) ++
        (Tok.WS, " ") :: term :: rest, (Tok.IDENT, name), 1⟩ fuel
      = some (Except.ok (Render.applyClauses (Render.colBase name ty sz)
          (cs ++ [Render.Clause.cdefaultTs])), ⟨rest, term, 1⟩) ∧
    (Render.applyClauses (Render.colBase name ty sz)
        (cs ++ [Render.Clause.cdefaultTs])).Nullable = false) := by
  refine ⟨⟨Parser.scanColumn_render name tyLit ty sz _ term rest fuel hty hterm
      (by simp; omega), ?_⟩,
    Parser.scanColumn_render name tyLit ty sz _ term rest fuel hty hterm
      (by simp; omega), ?_⟩ <;>
    simp [Render.applyClauses, Render.applyClause]

/-- Witness for the amended C9: after a standalone NULL clause, DEFAULT
with the string value x forces Nullable false, and DEFAULT
CURRENT_TIMESTAMP does too. -/
theorem claim_C9_amended_witness :
    (Parser.scanColumn ⟨Render.renderType Tok.VARCHAR "varchar" none ++
        Render.renderClauses [Render.Clause.cnull, Render.Clause.cdefaultStr "x"] ++
        (Tok.WS, " ") :: (Tok.COMMA, ",") :: [], (Tok.IDENT, "c"), 1⟩ 9
      = some (Except.ok (Render.applyClauses (Render.colBase "c" Tok.VARCHAR none)
          [Render.Clause.cnull, Render.Clause.cdefaultStr "x"]),
          ⟨[], (Tok.COMMA, ","), 1⟩) ∧
    (Render.applyClauses (Render.colBase "c" Tok.VARCHAR none)
        [Render.Clause.cnull, Render.Clause.cdefaultStr "x"]).Nullable
      = decide ("x" = "null")) ∧
    (Parser.scanColumn ⟨Render.renderType Tok.VARCHAR "varchar" none ++
        Render.renderClauses [Render.Clause.cnull, Render.Clause.cdefaultTs] ++
        (Tok.WS, " ") :: (Tok.COMMA, ",") :: [], (Tok.IDENT, "c"), 1⟩ 9
      = some (Except.ok (Render.applyClauses (Render.colBase "c" Tok.VARCHAR none)
          [Render.Clause.cnull, Render.Clause.cdefaultTs]),
          ⟨[], (Tok.COMMA, ","), 1⟩) ∧
    (Render.applyClauses (Render.colBase "c" Tok.VARCHAR none)
        [Render.Clause.cnull, Render.Clause.cdefaultTs]).Nullable = false) :=
  claim_C9_amended "c" "varchar" Tok.VARCHAR none [Render.Clause.cnull] "x"
    (Tok.COMMA, ",") [] 9 (by decide) (Or.inl rfl) (by decide)

/-! ## Claim C8 infrastructure: no empty column names -/

/-- A token is good when, if it is an IDENT, its literal is nonempty. -/
def GoodTok (t : Tok × String) : Prop := t.1 = Tok.IDENT → t.2 ≠ ""

/-- Parser-state invariant: all pending tokens and the buffered token are
good. -/
def GoodP (p : Parser) : Prop := (∀ t ∈ p.toks, GoodTok t) ∧ GoodTok p.bufTok

/-- All column names of a table are nonempty. -/
def ColsGood (tbl : Table) : Prop := ∀ pr ∈ tbl.Columns, pr.1 ≠ ""

/-- All tables of a schema have only nonempty column names. -/
def SchGood (sch : Schema) : Prop := ∀ pr ∈ sch, ColsGood pr.2

theorem goodTok_eof : GoodTok (Tok.EOF, "EOF") := by simp [GoodTok]

theorem upsert_good {α : Type} {m : List (String × α)} {k : String} {v : α}
    (hm : ∀ pr ∈ m, pr.1 ≠ "") (hk : k ≠ "") : ∀ pr ∈ upsert m k v, pr.1 ≠ "" := by
  induction m with
  | nil =>
    intro pr hpr
    simp only [upsert, List.mem_singleton] at hpr
    rw [hpr]
    exact hk
  | cons a m ih =>
    intro pr hpr
    simp only [upsert] at hpr
    by_cases hak : a.1 = k
    · rw [if_pos hak] at hpr
      rcases List.mem_cons.mp hpr with h | h
      · rw [h]; exact hk
      · exact hm pr (List.mem_cons_of_mem a h)
    · rw [if_neg hak] at hpr
      rcases List.mem_cons.mp hpr with h | h
      · rw [h]; exact hm a (List.mem_cons_self a m)
      · exact ih (fun q hq => hm q (List.mem_cons_of_mem a hq)) pr h

namespace Parser

theorem good_scan {p : Parser} {t : Tok × String} {p' : Parser} (h : GoodP p)
    (he : scan p = (t, p')) : GoodTok t ∧ GoodP p' := by
  unfold scan at he
  by_cases hb : p.bufN ≠ 0
  · rw [if_pos hb] at he
    injection he with h1 h2
    subst h1; subst h2
    exact ⟨h.2, h.1, h.2⟩
  · rw [if_neg hb] at he
    cases htoks : p.toks with
    | nil =>
      rw [htoks] at he
      injection he with h1 h2
      subst h1; subst h2
      refine ⟨goodTok_eof, ?_, goodTok_eof⟩
      intro u hu
      simp at hu
    | cons a r =>
      rw [htoks] at he
      injection he with h1 h2
      subst h1; subst h2
      refine ⟨h.1 a (htoks ▸ List.mem_cons_self a r), ?_, h.1 a (htoks ▸ List.mem_cons_self a r)⟩
      intro u hu
      exact h.1 u (htoks ▸ List.mem_cons_of_mem a hu)

theorem good_unscan {p : Parser} (h : GoodP p) : GoodP (unscan p) := h

theorem good_sIW {p : Parser} {t : Tok × String} {p' : Parser} (h : GoodP p)
    (he : scanIgnoreWhitespace p = (t, p')) : GoodTok t ∧ GoodP p' := by
  unfold scanIgnoreWhitespace at he
  rcases h1 : scan p with ⟨u, q⟩
  rw [h1] at he
  dsimp only at he
  obtain ⟨gu, gq⟩ := good_scan h h1
  by_cases hw : u.1 = Tok.WS ∨ u.1 = Tok.ANNOT
  · rw [if_pos hw] at he
    exact good_scan gq he
  · rw [if_neg hw] at he
    injection he with e1 e2
    subst e1; subst e2
    exact ⟨gu, gq⟩

theorem good_scanIdent {p : Parser} {t : Tok × String} {p' : Parser} (h : GoodP p)
    (he : scanIdent p = (t, p')) : GoodTok t ∧ GoodP p' := by
  unfold scanIdent at he
  rcases h1 : scanIgnoreWhitespace p with ⟨u, q⟩
  rw [h1] at he
  dsimp only at he
  obtain ⟨gu, gq⟩ := good_sIW h h1
  by_cases hu : u.1 ≠ Tok.IDENT
  · rw [if_pos hu] at he
    injection he with e1 e2
    subst e1; subst e2
    exact ⟨by simp [GoodTok], gq⟩
  · rw [if_neg hu] at he
    injection he with e1 e2
    subst e1; subst e2
    exact ⟨gu, gq⟩

end Parser

namespace Parser

theorem good_scanType {p p' : Parser} {e : Except Err (String × Nat)} (h : GoodP p)
    (he : scanType p = (e, p')) : GoodP p' := by
  unfold scanType at he
  rcases h1 : scanIgnoreWhitespace p with ⟨t, p1⟩
  rw [h1] at he; dsimp only at he
  obtain ⟨gt, gp1⟩ := good_sIW h h1
  split at he
  · rcases h2 : scanIgnoreWhitespace p1 with ⟨t1, p2⟩
    rw [h2] at he; dsimp only at he
    obtain ⟨gt1, gp2⟩ := good_sIW gp1 h2
    split at he
    · injection he with e1 e2; subst e2; exact gp2
    · rcases h3 : scanIgnoreWhitespace p2 with ⟨t2, p3⟩
      rw [h3] at he; dsimp only at he
      obtain ⟨gt2, gp3⟩ := good_sIW gp2 h3
      rcases h4 : scanIgnoreWhitespace p3 with ⟨t3, p4⟩
      rw [h4] at he; dsimp only at he
      obtain ⟨gt3, gp4⟩ := good_sIW gp3 h4
      split at he
      · injection he with e1 e2; subst e2; exact gp4
      · injection he with e1 e2; subst e2; exact gp4
  · injection he with e1 e2; subst e2; exact gp1

theorem good_scanDefault {p p' : Parser} {e : Except Err String} (h : GoodP p)
    (he : scanDefault p = (e, p')) : GoodP p' := by
  unfold scanDefault at he
  rcases h1 : scanIgnoreWhitespace p with ⟨t, p1⟩
  rw [h1] at he; dsimp only at he
  obtain ⟨gt, gp1⟩ := good_sIW h h1
  split at he
  · injection he with e1 e2; subst e2; exact gp1
  · rcases h2 : scanIgnoreWhitespace p1 with ⟨t1, p2⟩
    rw [h2] at he; dsimp only at he
    obtain ⟨gt1, gp2⟩ := good_sIW gp1 h2
    split at he <;> (injection he with e1 e2; subst e2; exact gp2)

theorem good_scanParenIdent {p p' : Parser} {t : Tok × String} (h : GoodP p)
    (he : scanParenIdent p = (t, p')) : GoodTok t ∧ GoodP p' := by
  unfold scanParenIdent at he
  rcases h1 : scanIgnoreWhitespace p with ⟨u, p1⟩
  rw [h1] at he; dsimp only at he
  obtain ⟨gu, gp1⟩ := good_sIW h h1
  split at he
  · injection he with e1 e2; subst e1; subst e2
    exact ⟨by simp [GoodTok], gp1⟩
  · rcases h2 : scanIgnoreWhitespace p1 with ⟨u2, p2⟩
    rw [h2] at he; dsimp only at he
    obtain ⟨gu2, gp2⟩ := good_sIW gp1 h2
    split at he
    · rename_i hu2id
      rcases h3 : scanIgnoreWhitespace p2 with ⟨u3, p3⟩
      rw [h3] at he; dsimp only at he
      obtain ⟨gu3, gp3⟩ := good_sIW gp2 h3
      split at he
      · injection he with e1 e2; subst e1; subst e2
        exact ⟨by simp [GoodTok], gp3⟩
      · injection he with e1 e2; subst e1; subst e2
        refine ⟨?_, gp3⟩
        intro _ hne
        exact gu2 hu2id hne
    · injection he with e1 e2; subst e1; subst e2
      exact ⟨by simp [GoodTok], gp2⟩

end Parser

namespace Parser

theorem good_scanPrimaryKey {p p' : Parser} {e : Except Err String} (h : GoodP p)
    (he : scanPrimaryKey p = (e, p')) : GoodP p' := by
  unfold scanPrimaryKey at he
  rcases h1 : scanIgnoreWhitespace p with ⟨t1, p1⟩
  rw [h1] at he; dsimp only at he
  obtain ⟨g1, gp1⟩ := good_sIW h h1
  rcases h2 : scanIgnoreWhitespace p1 with ⟨t2, p2⟩
  rw [h2] at he; dsimp only at he
  obtain ⟨g2, gp2⟩ := good_sIW gp1 h2
  split at he
  · injection he with e1 e2; subst e2; exact gp2
  · rcases h3 : scanIgnoreWhitespace p2 with ⟨t3, p3⟩
    rw [h3] at he; dsimp only at he
    obtain ⟨g3, gp3⟩ := good_sIW gp2 h3
    split at he
    · rcases h4 : scanParenIdent (unscan p3) with ⟨t4, p4⟩
      rw [h4] at he; dsimp only at he
      obtain ⟨g4, gp4⟩ := good_scanParenIdent (good_unscan gp3) h4
      split at he <;> (injection he with e1 e2; subst e2; exact gp4)
    · rcases h4 : scanIdent p3 with ⟨t4, p4⟩
      rw [h4] at he; dsimp only at he
      obtain ⟨g4, gp4⟩ := good_scanIdent gp3 h4
      split at he <;> (injection he with e1 e2; subst e2; exact gp4)

theorem good_scanKey {p p' : Parser} {e : Except Err (String × String)} (h : GoodP p)
    (he : scanKey p = (e, p')) : GoodP p' := by
  unfold scanKey at he
  rcases h1 : scanIgnoreWhitespace p with ⟨t1, p1⟩
  rw [h1] at he; dsimp only at he
  obtain ⟨g1, gp1⟩ := good_sIW h h1
  split at he
  · injection he with e1 e2; subst e2; exact gp1
  · rcases h2 : scanIgnoreWhitespace p1 with ⟨t2, p2⟩
    rw [h2] at he; dsimp only at he
    obtain ⟨g2, gp2⟩ := good_sIW gp1 h2
    split at he
    · injection he with e1 e2; subst e2; exact gp2
    · rcases h3 : scanIgnoreWhitespace p2 with ⟨t3, p3⟩
      rw [h3] at he; dsimp only at he
      obtain ⟨g3, gp3⟩ := good_sIW gp2 h3
      split at he
      · injection he with e1 e2; subst e2; exact gp3
      · split at he
        · rcases h4 : scanParenIdent (unscan p3) with ⟨t4, p4⟩
          rw [h4] at he; dsimp only at he
          obtain ⟨g4, gp4⟩ := good_scanParenIdent (good_unscan gp3) h4
          split at he <;> (injection he with e1 e2; subst e2; exact gp4)
        · injection he with e1 e2; subst e2; exact gp3

theorem good_scanConstraint {p p' : Parser} {e : Except Err Constraint} (h : GoodP p)
    (he : scanConstraint p = (e, p')) : GoodP p' := by
  unfold scanConstraint at he
  rcases h1 : scanIgnoreWhitespace p with ⟨t1, p1⟩
  rw [h1] at he; dsimp only at he
  obtain ⟨g1, gp1⟩ := good_sIW h h1
  split at he
  · injection he with e1 e2; subst e2; exact gp1
  · rcases h2 : scanIdent p1 with ⟨t2, p2⟩
    rw [h2] at he; dsimp only at he
    obtain ⟨g2, gp2⟩ := good_scanIdent gp1 h2
    split at he
    · injection he with e1 e2; subst e2; exact gp2
    · rcases h3 : scanIgnoreWhitespace p2 with ⟨t3, p3⟩
      rw [h3] at he; dsimp only at he
      obtain ⟨g3, gp3⟩ := good_sIW gp2 h3
      rcases h4 : scanIgnoreWhitespace p3 with ⟨t4, p4⟩
      rw [h4] at he; dsimp only at he
      obtain ⟨g4, gp4⟩ := good_sIW gp3 h4
      split at he
      · injection he with e1 e2; subst e2; exact gp4
      · rcases h5 : scanParenIdent p4 with ⟨t5, p5⟩
        rw [h5] at he; dsimp only at he
        obtain ⟨g5, gp5⟩ := good_scanParenIdent gp4 h5
        split at he
        · injection he with e1 e2; subst e2; exact gp5
        · rcases h6 : scanIgnoreWhitespace p5 with ⟨t6, p6⟩
          rw [h6] at he; dsimp only at he
          obtain ⟨g6, gp6⟩ := good_sIW gp5 h6
          split at he
          · injection he with e1 e2; subst e2; exact gp6
          · rcases h7 : scanIdent p6 with ⟨t7, p7⟩
            rw [h7] at he; dsimp only at he
            obtain ⟨g7, gp7⟩ := good_scanIdent gp6 h7
            split at he
            · injection he with e1 e2; subst e2; exact gp7
            · rcases h8 : scanParenIdent p7 with ⟨t8, p8⟩
              rw [h8] at he; dsimp only at he
              obtain ⟨g8, gp8⟩ := good_scanParenIdent gp7 h8
              split at he <;> (injection he with e1 e2; subst e2; exact gp8)

theorem good_scanKV {p p' : Parser} {e : Except Err (String × String)} (h : GoodP p)
    (he : scanKV p = (e, p')) : GoodP p' := by
  unfold scanKV at he
  rcases h1 : scanIgnoreWhitespace p with ⟨t1, p1⟩
  rw [h1] at he; dsimp only at he
  obtain ⟨g1, gp1⟩ := good_sIW h h1
  rcases h2 : scanIgnoreWhitespace p1 with ⟨t2, p2⟩
  rw [h2] at he; dsimp only at he
  obtain ⟨g2, gp2⟩ := good_sIW gp1 h2
  rcases h3 : scanIgnoreWhitespace p2 with ⟨t3, p3⟩
  rw [h3] at he; dsimp only at he
  obtain ⟨g3, gp3⟩ := good_sIW gp2 h3
  split at he <;> (injection he with e1 e2; subst e2; exact gp3)

end Parser

namespace Parser

theorem good_scanColumnLoop {fuel : Nat} :
    ∀ {col : Column} {p p' : Parser} {r : Except Err Column}, GoodP p →
      scanColumnLoop col p fuel = some (r, p') →
      GoodP p' ∧ (∀ col', r = Except.ok col' → col'.Name = col.Name) := by
  induction fuel with
  | zero => intro col p p' r _ he; exact absurd he (by simp [scanColumnLoop])
  | succ m ih =>
    intro col p p' r h he
    unfold scanColumnLoop at he
    rcases h1 : scanIgnoreWhitespace p with ⟨t, p1⟩
    rw [h1] at he; try dsimp only at he
    obtain ⟨g1, gp1⟩ := good_sIW h h1
    split at he
    · rcases h2 : scanDefault (unscan p1) with ⟨e2 | v, p2⟩
      · rw [h2] at he; try dsimp only at he
        simp only [Option.some.injEq, Prod.mk.injEq] at he
        obtain ⟨rfl, rfl⟩ := he
        exact ⟨good_scanDefault (good_unscan gp1) h2, by intro c hc; cases hc⟩
      · rw [h2] at he; try dsimp only at he
        obtain ⟨q1, q2⟩ := ih (good_scanDefault (good_unscan gp1) h2) he
        exact ⟨q1, fun c hc => q2 c hc⟩
    · obtain ⟨q1, q2⟩ := ih gp1 he
      exact ⟨q1, fun c hc => q2 c hc⟩
    · rcases h2 : scanIgnoreWhitespace p1 with ⟨t1, p2⟩
      rw [h2] at he; try dsimp only at he
      obtain ⟨g2, gp2⟩ := good_sIW gp1 h2
      split at he
      · simp only [Option.some.injEq, Prod.mk.injEq] at he
        obtain ⟨rfl, rfl⟩ := he
        exact ⟨gp2, by intro c hc; cases hc⟩
      · obtain ⟨q1, q2⟩ := ih gp2 he
        exact ⟨q1, fun c hc => q2 c hc⟩
    · rcases h2 : scanIgnoreWhitespace p1 with ⟨t1, p2⟩
      rw [h2] at he; try dsimp only at he
      obtain ⟨g2, gp2⟩ := good_sIW gp1 h2
      split at he
      · obtain ⟨q1, q2⟩ := ih gp2 he
        exact ⟨q1, fun c hc => q2 c hc⟩
      · simp only [Option.some.injEq, Prod.mk.injEq] at he
        obtain ⟨rfl, rfl⟩ := he
        exact ⟨gp2, by intro c hc; cases hc⟩
    · obtain ⟨q1, q2⟩ := ih gp1 he
      exact ⟨q1, fun c hc => q2 c hc⟩
    · simp only [Option.some.injEq, Prod.mk.injEq] at he
      obtain ⟨rfl, rfl⟩ := he
      exact ⟨good_unscan gp1, by intro c hc; injection hc with hh; rw [← hh]⟩
    · simp only [Option.some.injEq, Prod.mk.injEq] at he
      obtain ⟨rfl, rfl⟩ := he
      exact ⟨good_unscan gp1, by intro c hc; injection hc with hh; rw [← hh]⟩
    · simp only [Option.some.injEq, Prod.mk.injEq] at he
      obtain ⟨rfl, rfl⟩ := he
      exact ⟨gp1, by intro c hc; cases hc⟩
    · simp only [Option.some.injEq, Prod.mk.injEq] at he
      obtain ⟨rfl, rfl⟩ := he
      exact ⟨gp1, by intro c hc; cases hc⟩

theorem good_scanColumn {p p' : Parser} {fuel : Nat} {r : Except Err Column}
    (h : GoodP p) (he : scanColumn p fuel = some (r, p')) :
    GoodP p' ∧ (∀ col, r = Except.ok col → col.Name ≠ "") := by
  unfold scanColumn at he
  rcases h1 : scanIdent p with ⟨t, p1⟩
  rw [h1] at he; try dsimp only at he
  obtain ⟨g1, gp1⟩ := good_scanIdent h h1
  split at he
  · simp only [Option.some.injEq, Prod.mk.injEq] at he
    obtain ⟨rfl, rfl⟩ := he
    exact ⟨gp1, by intro c hc; cases hc⟩
  · rename_i hident
    rcases h2 : scanType p1 with ⟨e2 | tysz, p2⟩
    · rw [h2] at he; try dsimp only at he
      simp only [Option.some.injEq, Prod.mk.injEq] at he
      obtain ⟨rfl, rfl⟩ := he
      exact ⟨good_scanType gp1 h2, by intro c hc; cases hc⟩
    · obtain ⟨ty, sz⟩ := tysz
      rw [h2] at he; try dsimp only at he
      obtain ⟨q1, q2⟩ := good_scanColumnLoop (good_scanType gp1 h2) he
      refine ⟨q1, ?_⟩
      intro c hc
      rw [q2 c hc]
      simp only [ne_eq, not_not] at hident
      exact g1 hident

end Parser

namespace Parser

/-- One-step unfolding of the scanExtra loop (stated by hand: the
machine-generated equations for this definition are very slow to
elaborate). -/
theorem scanExtraLoop_succ (ex : List (String × String)) (p : Parser) (m : Nat) :
    scanExtraLoop ex p (m + 1)
      = (let (t, p1) := scanIgnoreWhitespace p
         if t.1 ≠ Tok.SEMI_COLON then
           let p2 := if t.1 ≠ Tok.DEFAULT then unscan p1 else p1
           match scanKV p2 with
           | (Except.error e, p3) => some (Except.error e, p3)
           | (Except.ok (k, v), p3) => scanExtraLoop (upsert ex k v) p3 m
         else some (Except.ok ex, unscan p1)) := rfl

theorem good_scanExtraLoop {fuel : Nat} :
    ∀ {ex : List (String × String)} {p p' : Parser}
      {r : Except Err (List (String × String))}, GoodP p →
      scanExtraLoop ex p fuel = some (r, p') → GoodP p' := by
  induction fuel with
  | zero => intro ex p p' r _ he; exact Option.noConfusion he
  | succ m ih =>
    intro ex p p' r h he
    rw [scanExtraLoop_succ] at he
    rcases h1 : scanIgnoreWhitespace p with ⟨t, p1⟩
    rw [h1] at he; try dsimp only at he
    obtain ⟨g1, gp1⟩ := good_sIW h h1
    split at he
    · by_cases hd : t.1 ≠ Tok.DEFAULT
      · rw [if_pos hd] at he
        rcases h2 : scanKV (unscan p1) with ⟨e2 | ⟨k, v⟩, p2⟩
        · rw [h2] at he; try dsimp only at he
          simp only [Option.some.injEq, Prod.mk.injEq] at he
          obtain ⟨rfl, rfl⟩ := he
          exact good_scanKV (good_unscan gp1) h2
        · rw [h2] at he; try dsimp only at he
          exact ih (good_scanKV (good_unscan gp1) h2) he
      · rw [if_neg hd] at he
        rcases h2 : scanKV p1 with ⟨e2 | ⟨k, v⟩, p2⟩
        · rw [h2] at he; try dsimp only at he
          simp only [Option.some.injEq, Prod.mk.injEq] at he
          obtain ⟨rfl, rfl⟩ := he
          exact good_scanKV gp1 h2
        · rw [h2] at he; try dsimp only at he
          exact ih (good_scanKV gp1 h2) he
    · simp only [Option.some.injEq, Prod.mk.injEq] at he
      obtain ⟨rfl, rfl⟩ := he
      exact good_unscan gp1

theorem good_skipStmt {fuel : Nat} :
    ∀ {p : Parser} {p' : Parser}, GoodP p →
      skipStmt p fuel = some (some p') → GoodP p' := by
  induction fuel with
  | zero => intro p p' _ he; exact Option.noConfusion he
  | succ m ih =>
    intro p p' h he
    unfold skipStmt at he
    rcases h1 : scanIgnoreWhitespace p with ⟨t, p1⟩
    rw [h1] at he; try dsimp only at he
    obtain ⟨g1, gp1⟩ := good_sIW h h1
    split at he
    · simp only [Option.some.injEq, Option.some.injEq] at he
      rw [← he]
      exact gp1
    · split at he
      · simp at he
      · exact ih gp1 he

theorem good_parsePre {fuel : Nat} :
    ∀ {p : Parser} {p' : Parser}, GoodP p →
      parsePre p fuel = some (PreOut.toCreate p') → GoodP p' := by
  induction fuel with
  | zero => intro p p' _ he; exact Option.noConfusion he
  | succ m ih =>
    intro p p' h he
    unfold parsePre at he
    rcases h1 : scanIgnoreWhitespace p with ⟨t, p1⟩
    rw [h1] at he; try dsimp only at he
    obtain ⟨g1, gp1⟩ := good_sIW h h1
    split at he
    · rcases h2 : skipStmt p1 m with _ | ⟨_ | p2⟩
      · rw [h2] at he; cases he
      · rw [h2] at he; try dsimp only at he; cases he
      · rw [h2] at he; try dsimp only at he
        exact ih (good_skipStmt gp1 h2) he
    · split at he
      · exact ih gp1 he
      · split at he
        · simp only [Option.some.injEq, PreOut.toCreate.injEq] at he
          rw [← he]
          exact gp1
        · split at he
          · cases he
          · cases he

end Parser

namespace Parser

/-- One-step unfolding of the item loop, stated by hand. -/
theorem parseItems_succ (tbl : Table) (p : Parser) (m : Nat) :
    parseItems tbl p (m + 1)
      = (let (t, p1) := scanIgnoreWhitespace p
         match t.1 with
         | Tok.IDENT =>
           match scanColumn (unscan p1) m with
           | none => none
           | some (Except.error e, p2) => some (Except.error e, p2)
           | some (Except.ok col, p2) =>
             parseItems { tbl with Columns := upsert tbl.Columns col.Name col } p2 m
         | Tok.PRIMARY =>
           match scanPrimaryKey (unscan p1) with
           | (Except.error e, p2) => some (Except.error e, p2)
           | (Except.ok k, p2) => parseItems { tbl with PrimaryKey := k } p2 m
         | Tok.UNIQUE =>
           match scanKey p1 with
           | (Except.error e, p2) => some (Except.error e, p2)
           | (Except.ok (k, v), p2) =>
             parseItems { tbl with UniqueKeys := upsert tbl.UniqueKeys k v } p2 m
         | Tok.KEY =>
           match scanKey (unscan p1) with
           | (Except.error e, p2) => some (Except.error e, p2)
           | (Except.ok (k, v), p2) =>
             parseItems { tbl with Keys := upsert tbl.Keys k v } p2 m
         | Tok.CONSTRAINT =>
           match scanConstraint (unscan p1) with
           | (Except.error e, p2) => some (Except.error e, p2)
           | (Except.ok cos, p2) =>
             parseItems
               { tbl with Constraints := upsert tbl.Constraints cos.ForeignKey cos } p2 m
         | Tok.CLOSE_PAREN =>
           let (t2, p2) := scanIgnoreWhitespace p1
           if t2.1 ≠ Tok.SEMI_COLON then
             match scanExtraLoop [] (unscan p2) m with
             | none => none
             | some (Except.error e, p3) => some (Except.error e, p3)
             | some (Except.ok extras, p3) =>
               some (Except.ok { tbl with Extras := extras }, p3)
           else some (Except.ok tbl, p2)
         | Tok.COMMA => parseItems tbl p1 m
         | Tok.SEMI_COLON => some (Except.ok tbl, p1)
         | _ =>
           some (Except.error
             (foundExpected t.2 "ident or primary or unique or key or constraint"), p1)) := rfl

theorem good_parseItems {fuel : Nat} :
    ∀ {tbl : Table} {p p' : Parser} {r : Except Err Table}, GoodP p → ColsGood tbl →
      parseItems tbl p fuel = some (r, p') →
      GoodP p' ∧ (∀ tbl', r = Except.ok tbl' → ColsGood tbl') := by
  induction fuel with
  | zero => intro tbl p p' r _ _ he; exact Option.noConfusion he
  | succ m ih =>
    intro tbl p p' r h hcols he
    rw [parseItems_succ] at he
    rcases h1 : scanIgnoreWhitespace p with ⟨t, p1⟩
    rw [h1] at he; try dsimp only at he
    obtain ⟨g1, gp1⟩ := good_sIW h h1
    split at he
    · -- IDENT: scanColumn
      rcases h2 : scanColumn (unscan p1) m with _ | ⟨e2 | col, p2⟩
      · rw [h2] at he; cases he
      · rw [h2] at he; try dsimp only at he
        simp only [Option.some.injEq, Prod.mk.injEq] at he
        obtain ⟨rfl, rfl⟩ := he
        exact ⟨(good_scanColumn (good_unscan gp1) h2).1, by intro c hc; cases hc⟩
      · rw [h2] at he; try dsimp only at he
        obtain ⟨gq, gname⟩ := good_scanColumn (good_unscan gp1) h2
        refine ih gq ?_ he
        exact upsert_good hcols (gname col rfl)
    · -- PRIMARY
      rcases h2 : scanPrimaryKey (unscan p1) with ⟨e2 | k, p2⟩
      · rw [h2] at he; try dsimp only at he
        simp only [Option.some.injEq, Prod.mk.injEq] at he
        obtain ⟨rfl, rfl⟩ := he
        exact ⟨good_scanPrimaryKey (good_unscan gp1) h2, by intro c hc; cases hc⟩
      · rw [h2] at he; try dsimp only at he
        refine ih ?_ ?_ he
        · exact good_scanPrimaryKey (good_unscan gp1) h2
        · exact hcols
    · -- UNIQUE
      rcases h2 : scanKey p1 with ⟨e2 | ⟨k, v⟩, p2⟩
      · rw [h2] at he; try dsimp only at he
        simp only [Option.some.injEq, Prod.mk.injEq] at he
        obtain ⟨rfl, rfl⟩ := he
        exact ⟨good_scanKey gp1 h2, by intro c hc; cases hc⟩
      · rw [h2] at he; try dsimp only at he
        refine ih ?_ ?_ he
        · exact good_scanKey gp1 h2
        · exact hcols
    · -- KEY
      rcases h2 : scanKey (unscan p1) with ⟨e2 | ⟨k, v⟩, p2⟩
      · rw [h2] at he; try dsimp only at he
        simp only [Option.some.injEq, Prod.mk.injEq] at he
        obtain ⟨rfl, rfl⟩ := he
        exact ⟨good_scanKey (good_unscan gp1) h2, by intro c hc; cases hc⟩
      · rw [h2] at he; try dsimp only at he
        refine ih ?_ ?_ he
        · exact good_scanKey (good_unscan gp1) h2
        · exact hcols
    · -- CONSTRAINT
      rcases h2 : scanConstraint (unscan p1) with ⟨e2 | cos, p2⟩
      · rw [h2] at he; try dsimp only at he
        simp only [Option.some.injEq, Prod.mk.injEq] at he
        obtain ⟨rfl, rfl⟩ := he
        exact ⟨good_scanConstraint (good_unscan gp1) h2, by intro c hc; cases hc⟩
      · rw [h2] at he; try dsimp only at he
        refine ih ?_ ?_ he
        · exact good_scanConstraint (good_unscan gp1) h2
        · exact hcols
    · -- CLOSE_PAREN
      rcases h2 : scanIgnoreWhitespace p1 with ⟨t2, p2⟩
      rw [h2] at he; try dsimp only at he
      obtain ⟨g2, gp2⟩ := good_sIW gp1 h2
      split at he
      · rcases h3 : scanExtraLoop [] (unscan p2) m with _ | ⟨e3 | extras, p3⟩
        · rw [h3] at he; cases he
        · rw [h3] at he; try dsimp only at he
          simp only [Option.some.injEq, Prod.mk.injEq] at he
          obtain ⟨rfl, rfl⟩ := he
          exact ⟨good_scanExtraLoop (good_unscan gp2) h3, by intro c hc; cases hc⟩
        · rw [h3] at he; try dsimp only at he
          simp only [Option.some.injEq, Prod.mk.injEq] at he
          obtain ⟨rfl, rfl⟩ := he
          refine ⟨good_scanExtraLoop (good_unscan gp2) h3, ?_⟩
          intro c hc
          injection hc with hh
          rw [← hh]
          exact hcols
      · simp only [Option.some.injEq, Prod.mk.injEq] at he
        obtain ⟨rfl, rfl⟩ := he
        refine ⟨gp2, ?_⟩
        intro c hc
        injection hc with hh
        rw [← hh]
        exact hcols
    · -- COMMA
      exact ih gp1 hcols he
    · -- SEMI_COLON
      simp only [Option.some.injEq, Prod.mk.injEq] at he
      obtain ⟨rfl, rfl⟩ := he
      refine ⟨gp1, ?_⟩
      intro c hc
      injection hc with hh
      rw [← hh]
      exact hcols
    · -- default
      simp only [Option.some.injEq, Prod.mk.injEq] at he
      obtain ⟨rfl, rfl⟩ := he
      exact ⟨gp1, by intro c hc; cases hc⟩

end Parser

theorem upsert_forall {α : Type} (P : α → Prop) {m : List (String × α)} {k : String}
    {v : α} (hm : ∀ pr ∈ m, P pr.2) (hv : P v) : ∀ pr ∈ upsert m k v, P pr.2 := by
  induction m with
  | nil =>
    intro pr hpr
    simp only [upsert, List.mem_singleton] at hpr
    rw [hpr]
    exact hv
  | cons a m ih =>
    intro pr hpr
    simp only [upsert] at hpr
    by_cases hak : a.1 = k
    · rw [if_pos hak] at hpr
      rcases List.mem_cons.mp hpr with h | h
      · rw [h]; exact hv
      · exact hm pr (List.mem_cons_of_mem a h)
    · rw [if_neg hak] at hpr
      rcases List.mem_cons.mp hpr with h | h
      · rw [h]; exact hm a (List.mem_cons_self a m)
      · exact ih (fun q hq => hm q (List.mem_cons_of_mem a hq)) pr h

namespace Parser

theorem good_parseOne {p p' : Parser} {fuel : Nat} {r : Except Err (Option Table)}
    (h : GoodP p) (he : parseOne p fuel = some (r, p')) :
    GoodP p' ∧ (∀ tbl, r = Except.ok (some tbl) → ColsGood tbl) := by
  unfold parseOne at he
  rcases h1 : parsePre p fuel with _ | pre
  · rw [h1] at he; cases he
  · rw [h1] at he
    cases pre with
    | failed e =>
      dsimp only at he
      simp only [Option.some.injEq, Prod.mk.injEq] at he
      obtain ⟨rfl, rfl⟩ := he
      exact ⟨h, by intro c hc; cases hc⟩
    | finished =>
      dsimp only at he
      simp only [Option.some.injEq, Prod.mk.injEq] at he
      obtain ⟨rfl, rfl⟩ := he
      exact ⟨h, by intro c hc; cases hc⟩
    | toCreate p1 =>
      dsimp only at he
      have gp1 : GoodP p1 := good_parsePre h h1
      rcases h2 : scanIgnoreWhitespace p1 with ⟨t, p2⟩
      rw [h2] at he; try dsimp only at he
      obtain ⟨g2, gp2⟩ := good_sIW gp1 h2
      split at he
      · simp only [Option.some.injEq, Prod.mk.injEq] at he
        obtain ⟨rfl, rfl⟩ := he
        exact ⟨gp2, by intro c hc; cases hc⟩
      · rcases h3 : scanIdent p2 with ⟨tn, p3⟩
        rw [h3] at he; try dsimp only at he
        obtain ⟨g3, gp3⟩ := good_scanIdent gp2 h3
        split at he
        · simp only [Option.some.injEq, Prod.mk.injEq] at he
          obtain ⟨rfl, rfl⟩ := he
          exact ⟨gp3, by intro c hc; cases hc⟩
        · rcases h4 : scanIgnoreWhitespace p3 with ⟨t2, p4⟩
          rw [h4] at he; try dsimp only at he
          obtain ⟨g4, gp4⟩ := good_sIW gp3 h4
          split at he
          · simp only [Option.some.injEq, Prod.mk.injEq] at he
            obtain ⟨rfl, rfl⟩ := he
            exact ⟨gp4, by intro c hc; cases hc⟩
          · rcases h5 : parseItems (Table.fresh tn.2) p4 fuel with _ | ⟨e5 | tbl5, p5⟩
            · rw [h5] at he; cases he
            · rw [h5] at he; try dsimp only at he
              simp only [Option.some.injEq, Prod.mk.injEq] at he
              obtain ⟨rfl, rfl⟩ := he
              exact ⟨(good_parseItems gp4 (by intro pr hpr; cases hpr) h5).1,
                by intro c hc; cases hc⟩
            · rw [h5] at he; try dsimp only at he
              simp only [Option.some.injEq, Prod.mk.injEq] at he
              obtain ⟨rfl, rfl⟩ := he
              obtain ⟨q1, q2⟩ := good_parseItems gp4 (by intro pr hpr; cases hpr) h5
              refine ⟨q1, ?_⟩
              intro tbl htbl
              injection htbl with hh
              injection hh with hh2
              rw [← hh2]
              exact q2 tbl5 rfl

theorem good_ParseLoop {fuel : Nat} :
    ∀ {sch : Schema} {p : Parser} {sch' : Schema} {oe : Option Err},
      GoodP p → SchGood sch → ParseLoop sch p fuel = some (sch', oe) → SchGood sch' := by
  induction fuel with
  | zero => intro sch p sch' oe _ _ he; exact Option.noConfusion he
  | succ m ih =>
    intro sch p sch' oe h hsch he
    unfold ParseLoop at he
    rcases h1 : parseOne p m with _ | ⟨e1 | ot, p1⟩
    · rw [h1] at he; cases he
    · rw [h1] at he; try dsimp only at he
      simp only [Option.some.injEq, Prod.mk.injEq] at he
      obtain ⟨rfl, rfl⟩ := he
      exact hsch
    · cases ot with
      | none =>
        rw [h1] at he; try dsimp only at he
        simp only [Option.some.injEq, Prod.mk.injEq] at he
        obtain ⟨rfl, rfl⟩ := he
        exact hsch
      | some tbl =>
        rw [h1] at he; try dsimp only at he
        obtain ⟨q1, q2⟩ := good_parseOne h h1
        exact ih q1 (upsert_forall ColsGood hsch (q2 tbl rfl)) he

end Parser

/-- C8 amended: provided every IDENT token of the stream has a nonempty
literal, every table of the schema Parse returns - with or without an
accompanying error - has no column stored under the empty name. -/
theorem claim_C8_amended (ts : List (Tok × String)) (fuel : Nat) (sch : Schema)
    (oe : Option Err) (hts : ∀ t ∈ ts, t.1 = Tok.IDENT → t.2 ≠ "")
    (hp : Parser.Parse ts fuel = some (sch, oe)) :
    ∀ pr ∈ sch, ∀ c ∈ pr.2.Columns, c.1 ≠ "" := by
  have hg : GoodP (mkParser ts) := ⟨hts, by simp [GoodTok, mkParser]⟩
  have := Parser.good_ParseLoop hg (by intro pr hpr; cases hpr) hp
  intro pr hpr c hc
  exact this pr hpr c hc

/-- C8 counterexample: the input CREATE TABLE t ( `` int ) - a column
declared with an empty backtick-quoted identifier - parses successfully
into a schema whose table stores a column under the EMPTY name. -/
theorem claim_C8_counterexample :
    (Scanner.tokenize (mkScan "CREATE TABLE `t` (`` int);") 80).map
        (fun ts => Parser.Parse ts 30)
      = some (some ([("t",
          ⟨"t", [("", ⟨"", "int", 0, none, "", false, false⟩)],
            "", [], [], [], []⟩)], none)) := by
  decide

/-- Witness for the amended C8 on a concrete stream where all IDENT
literals are nonempty: the column the parsed schema stores is keyed by a
nonempty name. -/
theorem claim_C8_amended_witness :
    ("c", (⟨"c", "int", 0, none, "", false, false⟩ : Column)).1 ≠ "" :=
  claim_C8_amended
    [(Tok.CREATE, "CREATE"), (Tok.WS, " "), (Tok.TABLE, "TABLE"), (Tok.WS, " "),
      (Tok.IDENT, "t"), (Tok.WS, " "), (Tok.OPEN_PAREN, "("), (Tok.IDENT, "c"),
      (Tok.WS, " "), (Tok.INT, "int"), (Tok.CLOSE_PAREN, ")"), (Tok.SEMI_COLON, ";")]
    30
    [("t", ⟨"t", [("c", ⟨"c", "int", 0, none, "", false, false⟩)], "", [], [], [], []⟩)]
    none (by decide) (by decide)
    ("t", ⟨"t", [("c", ⟨"c", "int", 0, none, "", false, false⟩)], "", [], [], [], []⟩)
    (by decide)
    ("c", ⟨"c", "int", 0, none, "", false, false⟩)
    (by decide)

namespace Parser

/-- The schema ParseLoop returns is exactly its accumulator folded with
the tables that the successive successful parse calls produce; on error
the failing call contributes nothing. -/
theorem ParseLoop_parseTables {fuel : Nat} :
    ∀ {sch : Schema} {p : Parser} {sch' : Schema} {oe : Option Err},
      ParseLoop sch p fuel = some (sch', oe) →
      ∃ tbls, parseTables p fuel = some (tbls, oe) ∧
        sch' = tbls.foldl (fun s t => upsert s t.Name t) sch := by
  induction fuel with
  | zero => intro sch p sch' oe he; exact Option.noConfusion he
  | succ m ih =>
    intro sch p sch' oe he
    unfold ParseLoop at he
    unfold parseTables
    rcases h1 : parseOne p m with _ | ⟨e1 | ot, p1⟩
    · rw [h1] at he; cases he
    · rw [h1] at he; try dsimp only at he
      try dsimp only
      simp only [Option.some.injEq, Prod.mk.injEq] at he
      obtain ⟨rfl, rfl⟩ := he
      exact ⟨[], rfl, rfl⟩
    · cases ot with
      | none =>
        rw [h1] at he; try dsimp only at he
        try dsimp only
        simp only [Option.some.injEq, Prod.mk.injEq] at he
        obtain ⟨rfl, rfl⟩ := he
        exact ⟨[], rfl, rfl⟩
      | some tbl =>
        rw [h1] at he; try dsimp only at he
        obtain ⟨tbls, hpt, hfold⟩ := ih he
        try dsimp only
        rw [hpt]
        exact ⟨tbl :: tbls, rfl, by simpa using hfold⟩

end Parser

/-- C7 amended: whenever Parse returns an error, the schema it returns
alongside is exactly the fold, keyed by table name with later tables
overwriting earlier ones of the same name, of the tables fully parsed by
the successful parse calls before the failure; the statement that caused
the error contributes no table. -/
theorem claim_C7_amended (ts : List (Tok × String)) (fuel : Nat) (sch : Schema)
    (e : Err) (hp : Parser.Parse ts fuel = some (sch, some e)) :
    ∃ tbls, Parser.parseTables (mkParser ts) fuel = some (tbls, some e) ∧
      sch = tbls.foldl (fun s t => upsert s t.Name t) [] :=
  Parser.ParseLoop_parseTables hp

/-- Witness for the amended C7: one table parses, then a malformed
statement errors; the returned schema folds exactly the one fully-parsed
table. -/
theorem claim_C7_amended_witness :
    ∃ tbls, Parser.parseTables (mkParser
        [(Tok.CREATE, "CREATE"), (Tok.WS, " "), (Tok.TABLE, "TABLE"), (Tok.WS, " "),
          (Tok.IDENT, "a"), (Tok.WS, " "), (Tok.OPEN_PAREN, "("), (Tok.IDENT, "x"),
          (Tok.WS, " "), (Tok.INT, "int"), (Tok.CLOSE_PAREN, ")"), (Tok.SEMI_COLON, ";"),
          (Tok.WS, " "), (Tok.CREATE, "CREATE"), (Tok.WS, " "), (Tok.IDENT, "junk")]) 40
        = some (tbls, some "found CREATE junk, expected CREATE TABLE") ∧
      [("a", (⟨"a", [("x", ⟨"x", "int", 0, none, "", false, false⟩)],
          "", [], [], [], []⟩ : Table))]
        = tbls.foldl (fun s t => upsert s t.Name t) [] :=
  claim_C7_amended _ 40 _ _ (by decide)

/-- C7 counterexample: two fully-parsed CREATE TABLE statements share the
name a (first with column x, second with column y) and a third statement
fails.  The returned schema holds only the LATER table under the name; the
earlier fully-parsed table (column x) is not present in the schema, so the
schema does not contain every table fully parsed before the failure. -/
theorem claim_C7_counterexample :
    (Scanner.tokenize
        (mkScan "CREATE TABLE `a` (`x` int); CREATE TABLE `a` (`y` int); CREATE junk") 300).map
        (fun ts => Parser.Parse ts 80)
      = some (some ([("a",
          ⟨"a", [("y", ⟨"y", "int", 0, none, "", false, false⟩)],
            "", [], [], [], []⟩)], some "found CREATE junk, expected CREATE TABLE")) ∧
    (∀ pr ∈ ([("a",
          (⟨"a", [("y", ⟨"y", "int", 0, none, "", false, false⟩)],
            "", [], [], [], []⟩ : Table))] : Schema),
      pr.2 ≠ ⟨"a", [("x", ⟨"x", "int", 0, none, "", false, false⟩)],
            "", [], [], [], []⟩) := by
  exact ⟨by decide, by decide⟩

/-! ## Token renderings of well-formed CREATE TABLE statements -/

namespace Render

/-- The items of a CREATE TABLE body the grammar accepts.  Keys and the
primary key use the parenthesized single-column form (the bare-identifier
primary-key form is not part of the well-formed grammar: scanPrimaryKey
reads past the column without pushback in that form). -/
inductive ItemG where
  | gcol (name : String) (ty : Tok) (tyLit : String) (sz : Option String)
      (cs : List Clause)
  | gprimary (col : String)
  | gunique (idx col : String)
  | gkey (idx col : String)
  | gconstraint (cname fk rtbl rcol : String)
  deriving DecidableEq, Repr

/-- Token rendering of one item. -/
def renderItem : ItemG → List (Tok × String)
  | ItemG.gcol name ty tyLit sz cs =>
    w (Tok.IDENT, name) ++ renderType ty tyLit sz ++ renderClauses cs
  | ItemG.gprimary c =>
    w (Tok.PRIMARY, "PRIMARY") ++ w (Tok.KEY, "KEY") ++ w (Tok.OPEN_PAREN, "(") ++
      w (Tok.IDENT, c) ++ w (Tok.CLOSE_PAREN, ")")
  | ItemG.gunique i c =>
    w (Tok.UNIQUE, "UNIQUE") ++ w (Tok.KEY, "KEY") ++ w (Tok.IDENT, i) ++
      w (Tok.OPEN_PAREN, "(") ++ w (Tok.IDENT, c) ++ w (Tok.CLOSE_PAREN, ")")
  | ItemG.gkey i c =>
    w (Tok.KEY, "KEY") ++ w (Tok.IDENT, i) ++ w (Tok.OPEN_PAREN, "(") ++
      w (Tok.IDENT, c) ++ w (Tok.CLOSE_PAREN, ")")
  | ItemG.gconstraint n fk rt rc =>
    w (Tok.CONSTRAINT, "CONSTRAINT") ++ w (Tok.IDENT, n) ++ w (Tok.FOREIGN, "FOREIGN") ++
      w (Tok.KEY, "KEY") ++ w (Tok.OPEN_PAREN, "(") ++ w (Tok.IDENT, fk) ++
      w (Tok.CLOSE_PAREN, ")") ++ w (Tok.REFERENCES, "REFERENCES") ++
      w (Tok.IDENT, rt) ++ w (Tok.OPEN_PAREN, "(") ++ w (Tok.IDENT, rc) ++
      w (Tok.CLOSE_PAREN, ")")

/-- Comma-separated item list. -/
def renderItems : List ItemG → List (Tok × String)
  | [] => []
  | [i] => renderItem i
  | i :: is => renderItem i ++ w (Tok.COMMA, ",") ++ renderItems is

/-- The effect of one item on the table under construction, mirroring
the item loop of parse(). -/
def applyItem (tbl : Table) : ItemG → Table
  | ItemG.gcol name ty _ sz cs =>
    let col := applyClauses (colBase name ty sz) cs
    { tbl with Columns := upsert tbl.Columns col.Name col }
  | ItemG.gprimary c => { tbl with PrimaryKey := c }
  | ItemG.gunique i c => { tbl with UniqueKeys := upsert tbl.UniqueKeys i c }
  | ItemG.gkey i c => { tbl with Keys := upsert tbl.Keys i c }
  | ItemG.gconstraint n fk rt rc =>
    { tbl with Constraints := upsert tbl.Constraints fk ⟨n, fk, rt, rc⟩ }

def applyItems (tbl : Table) (is : List ItemG) : Table := is.foldl applyItem tbl

/-- Well-formedness of an item: the type keyword of a column is one of
the fixed data types. -/
def itemOk : ItemG → Prop
  | ItemG.gcol _ ty _ _ _ => Parser.isTypeTok ty = true
  | _ => True

/-- Fuel cost bound of an item. -/
def itemCost : ItemG → Nat
  | ItemG.gcol _ _ _ _ cs => cs.length + 4
  | _ => 4

def itemsCost : List ItemG → Nat
  | [] => 2
  | i :: is => itemCost i + itemsCost is

end Render

namespace Parser

/-- scanParenIdent on a rendered parenthesized column with the opening
parenthesis pushed back. -/
theorem scanParenIdent_replay (c : String) (rest : List (Tok × String)) :
    scanParenIdent ⟨(Tok.WS, " ") :: (Tok.IDENT, c) :: (Tok.WS, " ") ::
        (Tok.CLOSE_PAREN, ")") :: rest, (Tok.OPEN_PAREN, "("), 1⟩
      = ((Tok.IDENT, c), ⟨rest, (Tok.CLOSE_PAREN, ")"), 0⟩) := by
  simp [scanParenIdent, scanIgnoreWhitespace, scan]

/-- scanParenIdent on a fully fresh rendered parenthesized column. -/
theorem scanParenIdent_fresh (c : String) (rest : List (Tok × String))
    (b : Tok × String) :
    scanParenIdent ⟨(Tok.WS, " ") :: (Tok.OPEN_PAREN, "(") :: (Tok.WS, " ") ::
        (Tok.IDENT, c) :: (Tok.WS, " ") :: (Tok.CLOSE_PAREN, ")") :: rest, b, 0⟩
      = ((Tok.IDENT, c), ⟨rest, (Tok.CLOSE_PAREN, ")"), 0⟩) := by
  simp [scanParenIdent, scanIgnoreWhitespace, scan]

/-- scanPrimaryKey on a rendered PRIMARY KEY (col) with PRIMARY pushed
back, as the item loop calls it. -/
theorem scanPrimaryKey_render (c : String) (rest : List (Tok × String)) :
    scanPrimaryKey ⟨(Tok.WS, " ") :: (Tok.KEY, "KEY") :: (Tok.WS, " ") ::
        (Tok.OPEN_PAREN, "(") :: (Tok.WS, " ") :: (Tok.IDENT, c) :: (Tok.WS, " ") ::
        (Tok.CLOSE_PAREN, ")") :: rest, (Tok.PRIMARY, "PRIMARY"), 1⟩
      = (Except.ok c, ⟨rest, (Tok.CLOSE_PAREN, ")"), 0⟩) := by
  simp only [scanPrimaryKey]
  rw [sIW_replay _ _ (by decide) (by decide)]
  rw [sIW_ws]
  dsimp only
  rw [if_neg (by decide)]
  rw [sIW_ws]
  dsimp only
  rw [if_pos rfl]
  rw [show unscan ⟨(Tok.WS, " ") :: (Tok.IDENT, c) :: (Tok.WS, " ") ::
      (Tok.CLOSE_PAREN, ")") :: rest, (Tok.OPEN_PAREN, "("), 0⟩
    = ⟨(Tok.WS, " ") :: (Tok.IDENT, c) :: (Tok.WS, " ") ::
      (Tok.CLOSE_PAREN, ")") :: rest, (Tok.OPEN_PAREN, "("), 1⟩ from rfl]
  rw [scanParenIdent_replay]
  dsimp only
  rw [if_neg (by decide)]

end Parser

namespace Parser

/-- scanKey on a fresh rendered KEY idx (col), as the UNIQUE case of the
item loop calls it (the UNIQUE keyword already consumed, no pushback). -/
theorem scanKey_render_fresh (i c : String) (rest : List (Tok × String))
    (b : Tok × String) :
    scanKey ⟨(Tok.WS, " ") :: (Tok.KEY, "KEY") :: (Tok.WS, " ") :: (Tok.IDENT, i) ::
        (Tok.WS, " ") :: (Tok.OPEN_PAREN, "(") :: (Tok.WS, " ") :: (Tok.IDENT, c) ::
        (Tok.WS, " ") :: (Tok.CLOSE_PAREN, ")") :: rest, b, 0⟩
      = (Except.ok (i, c), ⟨rest, (Tok.CLOSE_PAREN, ")"), 0⟩) := by
  simp only [scanKey]
  rw [sIW_ws]
  dsimp only
  rw [if_neg (by decide)]
  rw [sIW_ws]
  dsimp only
  rw [if_neg (by decide)]
  rw [sIW_ws]
  dsimp only
  rw [if_neg (by decide), if_pos rfl]
  rw [show unscan ⟨(Tok.WS, " ") :: (Tok.IDENT, c) :: (Tok.WS, " ") ::
      (Tok.CLOSE_PAREN, ")") :: rest, (Tok.OPEN_PAREN, "("), 0⟩
    = ⟨(Tok.WS, " ") :: (Tok.IDENT, c) :: (Tok.WS, " ") ::
      (Tok.CLOSE_PAREN, ")") :: rest, (Tok.OPEN_PAREN, "("), 1⟩ from rfl]
  rw [scanParenIdent_replay]
  dsimp only
  rw [if_neg (by decide)]

/-- scanKey with the KEY keyword pushed back, as the KEY case of the item
loop calls it. -/
theorem scanKey_render_replay (i c : String) (rest : List (Tok × String)) :
    scanKey ⟨(Tok.WS, " ") :: (Tok.IDENT, i) ::
        (Tok.WS, " ") :: (Tok.OPEN_PAREN, "(") :: (Tok.WS, " ") :: (Tok.IDENT, c) ::
        (Tok.WS, " ") :: (Tok.CLOSE_PAREN, ")") :: rest, (Tok.KEY, "KEY"), 1⟩
      = (Except.ok (i, c), ⟨rest, (Tok.CLOSE_PAREN, ")"), 0⟩) := by
  simp only [scanKey]
  rw [sIW_replay _ _ (by decide) (by decide)]
  dsimp only
  rw [if_neg (by decide)]
  rw [sIW_ws]
  dsimp only
  rw [if_neg (by decide)]
  rw [sIW_ws]
  dsimp only
  rw [if_neg (by decide), if_pos rfl]
  rw [show unscan ⟨(Tok.WS, " ") :: (Tok.IDENT, c) :: (Tok.WS, " ") ::
      (Tok.CLOSE_PAREN, ")") :: rest, (Tok.OPEN_PAREN, "("), 0⟩
    = ⟨(Tok.WS, " ") :: (Tok.IDENT, c) :: (Tok.WS, " ") ::
      (Tok.CLOSE_PAREN, ")") :: rest, (Tok.OPEN_PAREN, "("), 1⟩ from rfl]
  rw [scanParenIdent_replay]
  dsimp only
  rw [if_neg (by decide)]

/-- The parser's scanIdent on a fresh whitespace-separated identifier. -/
theorem scanIdent_ws (name : String) (tail : List (Tok × String)) (b : Tok × String) :
    scanIdent ⟨(Tok.WS, " ") :: (Tok.IDENT, name) :: tail, b, 0⟩
      = ((Tok.IDENT, name), ⟨tail, (Tok.IDENT, name), 0⟩) := by
  simp [scanIdent, scanIgnoreWhitespace, scan]

set_option maxHeartbeats 1600000 in
/-- scanConstraint on a rendered foreign-key clause with CONSTRAINT
pushed back, as the item loop calls it. -/
theorem scanConstraint_render (n fk rt rc : String) (rest : List (Tok × String)) :
    scanConstraint ⟨(Tok.WS, " ") :: (Tok.IDENT, n) :: (Tok.WS, " ") ::
        (Tok.FOREIGN, "FOREIGN") :: (Tok.WS, " ") :: (Tok.KEY, "KEY") ::
        (Tok.WS, " ") :: (Tok.OPEN_PAREN, "(") :: (Tok.WS, " ") :: (Tok.IDENT, fk) ::
        (Tok.WS, " ") :: (Tok.CLOSE_PAREN, ")") :: (Tok.WS, " ") ::
        (Tok.REFERENCES, "REFERENCES") :: (Tok.WS, " ") :: (Tok.IDENT, rt) ::
        (Tok.WS, " ") :: (Tok.OPEN_PAREN, "(") :: (Tok.WS, " ") :: (Tok.IDENT, rc) ::
        (Tok.WS, " ") :: (Tok.CLOSE_PAREN, ")") :: rest,
        (Tok.CONSTRAINT, "CONSTRAINT"), 1⟩
      = (Except.ok ⟨n, fk, rt, rc⟩, ⟨rest, (Tok.CLOSE_PAREN, ")"), 0⟩) := by
  simp only [scanConstraint]
  rw [sIW_replay _ _ (by decide) (by decide)]
  dsimp only
  rw [if_neg (by decide)]
  rw [scanIdent_ws]
  dsimp only
  rw [if_neg (by decide)]
  rw [sIW_ws]
  dsimp only
  rw [sIW_ws]
  dsimp only
  rw [if_neg (by decide)]
  rw [scanParenIdent_fresh]
  dsimp only
  rw [if_neg (by decide)]
  rw [sIW_ws]
  dsimp only
  rw [if_neg (by decide)]
  rw [scanIdent_ws]
  dsimp only
  rw [if_neg (by decide)]
  rw [scanParenIdent_fresh]
  dsimp only
  rw [if_neg (by decide)]

end Parser

namespace Render

/-- Rendering of the trailing key=value extras. -/
def renderExtras : List (String × String) → List (Tok × String)
  | [] => []
  | (k, v) :: ex =>
    w (Tok.IDENT, k) ++ w (Tok.EQUAL, "=") ++ w (Tok.IDENT, v) ++ renderExtras ex

/-- The extras map scanExtra accumulates. -/
def extrasOf (acc : List (String × String)) (ex : List (String × String)) :
    List (String × String) :=
  ex.foldl (fun m kv => upsert m kv.1 kv.2) acc

/-- The table after the CLOSE_PAREN epilogue: unchanged when there are no
extras, otherwise with the Extras field replaced. -/
def applyExtras (tbl : Table) : List (String × String) → Table
  | [] => tbl
  | ex => { tbl with Extras := extrasOf [] ex }

/-- Buffer flag after the epilogue: with extras present the terminating
semicolon is pushed back (scanExtra unscans it), without extras it is
consumed outright. -/
def extraFlagN : List (String × String) → Nat
  | [] => 0
  | _ => 1

end Render

namespace Parser

/-- scanKV on a rendered key=value pair with the key pushed back. -/
theorem scanKV_render (k v : String) (tail : List (Tok × String)) :
    scanKV ⟨(Tok.WS, " ") :: (Tok.EQUAL, "=") :: (Tok.WS, " ") :: (Tok.IDENT, v) ::
        tail, (Tok.IDENT, k), 1⟩
      = (Except.ok (k, v), ⟨tail, (Tok.IDENT, v), 0⟩) := by
  simp [scanKV, scanIgnoreWhitespace, scan]

/-- The extras loop over a rendered extras list followed by the
terminating semicolon. -/
theorem scanExtraLoop_render (ex : List (String × String)) :
    ∀ (fuel : Nat) (acc : List (String × String)) (rest : List (Tok × String))
      (b : Tok × String), ex.length + 1 ≤ fuel →
      scanExtraLoop acc ⟨Render.renderExtras ex ++ (Tok.WS, " ") ::
          (Tok.SEMI_COLON, ";") :: rest, b, 0⟩ fuel
        = some (Except.ok (Render.extrasOf acc ex), ⟨rest, (Tok.SEMI_COLON, ";"), 1⟩) := by
  induction ex with
  | nil =>
    intro fuel acc rest b hf
    obtain ⟨m, rfl⟩ : ∃ m, fuel = m + 1 := ⟨fuel - 1, by omega⟩
    rw [scanExtraLoop_succ]
    rw [Render.renderExtras, List.nil_append, sIW_ws]
    dsimp only
    rw [if_neg (by decide)]
    rfl
  | cons kv ex ih =>
    obtain ⟨k, v⟩ := kv
    intro fuel acc rest b hf
    obtain ⟨m, rfl⟩ : ∃ m, fuel = m + 1 := ⟨fuel - 1, by omega⟩
    rw [scanExtraLoop_succ]
    simp only [Render.renderExtras, Render.w_def, List.cons_append, List.append_assoc,
      List.nil_append]
    rw [sIW_ws]
    dsimp only
    rw [if_pos (by decide), if_pos (by decide)]
    rw [show unscan ⟨(Tok.WS, " ") :: (Tok.EQUAL, "=") :: (Tok.WS, " ") :: (Tok.IDENT, v) ::
        (Render.renderExtras ex ++ (Tok.WS, " ") :: (Tok.SEMI_COLON, ";") :: rest),
        (Tok.IDENT, k), 0⟩
      = ⟨(Tok.WS, " ") :: (Tok.EQUAL, "=") :: (Tok.WS, " ") :: (Tok.IDENT, v) ::
        (Render.renderExtras ex ++ (Tok.WS, " ") :: (Tok.SEMI_COLON, ";") :: rest),
        (Tok.IDENT, k), 1⟩ from rfl]
    rw [scanKV_render]
    dsimp only
    rw [ih m (upsert acc k v) rest _ (by simp at hf ⊢; omega)]
    rfl

/-- scanExtraLoop inspects its state only through the first
scanIgnoreWhitespace call. -/
theorem scanExtraLoop_entry (acc : List (String × String)) (p q : Parser) (fuel : Nat)
    (h : scanIgnoreWhitespace p = scanIgnoreWhitespace q) :
    scanExtraLoop acc p (fuel + 1) = scanExtraLoop acc q (fuel + 1) := by
  rw [scanExtraLoop_succ, scanExtraLoop_succ, h]

/-- parseItems inspects its state only through the first
scanIgnoreWhitespace call. -/
theorem parseItems_entry (tbl : Table) (p q : Parser) (fuel : Nat)
    (h : scanIgnoreWhitespace p = scanIgnoreWhitespace q) :
    parseItems tbl p (fuel + 1) = parseItems tbl q (fuel + 1) := by
  rw [parseItems_succ, parseItems_succ, h]

end Parser

namespace Parser

/-- The CLOSE_PAREN epilogue of the item loop over a rendered extras
tail: reaching the closing parenthesis at the loop head returns the
table, reading the optional extras and the terminating semicolon. -/
theorem parseItems_close (ex : List (String × String)) (tbl : Table) :
    ∀ (fuel : Nat) (rest : List (Tok × String)) (b : Tok × String),
      ex.length + 2 ≤ fuel →
      parseItems tbl ⟨(Tok.WS, " ") :: (Tok.CLOSE_PAREN, ")") ::
          (Render.renderExtras ex ++ (Tok.WS, " ") :: (Tok.SEMI_COLON, ";") :: rest),
          b, 0⟩ fuel
        = some (Except.ok (Render.applyExtras tbl ex),
            ⟨rest, (Tok.SEMI_COLON, ";"), Render.extraFlagN ex⟩) := by
  intro fuel rest b hf
  obtain ⟨m, rfl⟩ : ∃ m, fuel = m + 1 := ⟨fuel - 1, by omega⟩
  rw [parseItems_succ]
  rw [sIW_ws]
  dsimp only
  cases ex with
  | nil =>
    rw [Render.renderExtras, List.nil_append, sIW_ws]
    dsimp only
    rw [if_neg (by decide)]
    rfl
  | cons kv ex' =>
    obtain ⟨k, v⟩ := kv
    simp only [Render.renderExtras, Render.w_def, List.cons_append, List.append_assoc,
      List.nil_append]
    rw [sIW_ws]
    dsimp only
    rw [if_pos (by decide)]
    obtain ⟨m', rfl⟩ : ∃ m', m = m' + 1 := ⟨m - 1, by simp at hf; omega⟩
    rw [scanExtraLoop_entry _ _ ⟨(Tok.WS, " ") :: (Tok.IDENT, k) :: ((Tok.WS, " ") ::
        (Tok.EQUAL, "=") :: (Tok.WS, " ") :: (Tok.IDENT, v) ::
        (Render.renderExtras ex' ++ (Tok.WS, " ") :: (Tok.SEMI_COLON, ";") :: rest)),
        (Tok.ILLEGAL, ""), 0⟩ m'
      (by simp only [unscan]
          rw [sIW_replay _ _ (by simp) (by simp), sIW_ws])]
    have hloop := scanExtraLoop_render ((k, v) :: ex') (m' + 1) [] rest (Tok.ILLEGAL, "")
      (by simp at hf ⊢; omega)
    simp only [Render.renderExtras, Render.w_def, List.cons_append, List.append_assoc,
      List.nil_append] at hloop
    rw [hloop]
    rfl

end Parser

namespace Parser

theorem parseItems_render (is : List Render.ItemG) :
    ∀ (fuel : Nat) (tbl : Table) (ex : List (String × String))
      (rest : List (Tok × String)) (b : Tok × String),
      (∀ i ∈ is, Render.itemOk i) →
      Render.itemsCost is + ex.length + 2 ≤ fuel →
      parseItems tbl ⟨Render.renderItems is ++ (Tok.WS, " ") :: (Tok.CLOSE_PAREN, ")") ::
          (Render.renderExtras ex ++ (Tok.WS, " ") :: (Tok.SEMI_COLON, ";") :: rest),
          b, 0⟩ fuel
        = some (Except.ok (Render.applyExtras (Render.applyItems tbl is) ex),
            ⟨rest, (Tok.SEMI_COLON, ";"), Render.extraFlagN ex⟩) := by
  induction is with
  | nil =>
    intro fuel tbl ex rest b _ hf
    rw [Render.renderItems, List.nil_append]
    exact parseItems_close ex tbl fuel rest b
      (by simp [Render.itemsCost] at hf; omega)
  | cons i is ih =>
    intro fuel tbl ex rest b hok hf
    have hoki : Render.itemOk i := hok i (List.mem_cons_self i is)
    obtain ⟨m, rfl⟩ : ∃ m, fuel = m + 1 := ⟨fuel - 1, by omega⟩
    cases is with
    | nil =>
      cases i with
      | gcol name ty tyLit sz cs =>
        simp only [Render.renderItems, Render.renderItem, Render.w_def,
          List.cons_append, List.append_assoc, List.nil_append]
        rw [parseItems_succ, sIW_ws]
        dsimp only
        rw [show (⟨Render.renderType ty tyLit sz ++ (Render.renderClauses cs ++
            (Tok.WS, " ") :: (Tok.CLOSE_PAREN, ")") :: (Render.renderExtras ex ++
            (Tok.WS, " ") :: (Tok.SEMI_COLON, ";") :: rest)),
            (Tok.IDENT, name), 0⟩ : Parser).unscan
          = ⟨Render.renderType ty tyLit sz ++ (Render.renderClauses cs ++
            (Tok.WS, " ") :: (Tok.CLOSE_PAREN, ")") :: (Render.renderExtras ex ++
            (Tok.WS, " ") :: (Tok.SEMI_COLON, ";") :: rest)),
            (Tok.IDENT, name), 1⟩ from rfl]
        have hcol := scanColumn_render name tyLit ty sz cs (Tok.CLOSE_PAREN, ")")
          (Render.renderExtras ex ++ (Tok.WS, " ") :: (Tok.SEMI_COLON, ";") :: rest) m
          hoki (Or.inr rfl)
          (by simp [Render.itemsCost, Render.itemCost] at hf; omega)
        simp only [List.append_assoc, List.cons_append] at hcol
        rw [hcol]
        dsimp only
        obtain ⟨m', rfl⟩ : ∃ m', m = m' + 1 :=
          ⟨m - 1, by simp [Render.itemsCost, Render.itemCost] at hf; omega⟩
        rw [parseItems_entry _ _ ⟨(Tok.WS, " ") :: (Tok.CLOSE_PAREN, ")") ::
            (Render.renderExtras ex ++ (Tok.WS, " ") :: (Tok.SEMI_COLON, ";") :: rest),
            (Tok.ILLEGAL, ""), 0⟩ m'
          (by rw [sIW_replay _ _ (by decide) (by decide), sIW_ws])]
        rw [parseItems_close ex _ (m' + 1) rest _
          (by simp [Render.itemsCost, Render.itemCost] at hf; omega)]
        simp [Render.applyItems, Render.applyItem]
      | gprimary c =>
        simp only [Render.renderItems, Render.renderItem, Render.w_def,
          List.cons_append, List.append_assoc, List.nil_append]
        rw [parseItems_succ, sIW_ws]
        dsimp only
        rw [show (⟨(Tok.WS, " ") :: (Tok.KEY, "KEY") :: (Tok.WS, " ") ::
            (Tok.OPEN_PAREN, "(") :: (Tok.WS, " ") :: (Tok.IDENT, c) :: (Tok.WS, " ") ::
            (Tok.CLOSE_PAREN, ")") :: ((Tok.WS, " ") :: (Tok.CLOSE_PAREN, ")") ::
            (Render.renderExtras ex ++ (Tok.WS, " ") :: (Tok.SEMI_COLON, ";") :: rest)),
            (Tok.PRIMARY, "PRIMARY"), 0⟩ : Parser).unscan
          = ⟨(Tok.WS, " ") :: (Tok.KEY, "KEY") :: (Tok.WS, " ") ::
            (Tok.OPEN_PAREN, "(") :: (Tok.WS, " ") :: (Tok.IDENT, c) :: (Tok.WS, " ") ::
            (Tok.CLOSE_PAREN, ")") :: ((Tok.WS, " ") :: (Tok.CLOSE_PAREN, ")") ::
            (Render.renderExtras ex ++ (Tok.WS, " ") :: (Tok.SEMI_COLON, ";") :: rest)),
            (Tok.PRIMARY, "PRIMARY"), 1⟩ from rfl]
        rw [scanPrimaryKey_render]
        dsimp only
        rw [parseItems_close ex _ m rest _
          (by simp [Render.itemsCost, Render.itemCost] at hf; omega)]
        simp [Render.applyItems, Render.applyItem]
      | gunique i c =>
        simp only [Render.renderItems, Render.renderItem, Render.w_def,
          List.cons_append, List.append_assoc, List.nil_append]
        rw [parseItems_succ, sIW_ws]
        dsimp only
        rw [scanKey_render_fresh]
        dsimp only
        rw [parseItems_close ex _ m rest _
          (by simp [Render.itemsCost, Render.itemCost] at hf; omega)]
        simp [Render.applyItems, Render.applyItem]
      | gkey i c =>
        simp only [Render.renderItems, Render.renderItem, Render.w_def,
          List.cons_append, List.append_assoc, List.nil_append]
        rw [parseItems_succ, sIW_ws]
        dsimp only
        rw [show (⟨(Tok.WS, " ") :: (Tok.IDENT, i) :: (Tok.WS, " ") ::
            (Tok.OPEN_PAREN, "(") :: (Tok.WS, " ") :: (Tok.IDENT, c) :: (Tok.WS, " ") ::
            (Tok.CLOSE_PAREN, ")") :: ((Tok.WS, " ") :: (Tok.CLOSE_PAREN, ")") ::
            (Render.renderExtras ex ++ (Tok.WS, " ") :: (Tok.SEMI_COLON, ";") :: rest)),
            (Tok.KEY, "KEY"), 0⟩ : Parser).unscan
          = ⟨(Tok.WS, " ") :: (Tok.IDENT, i) :: (Tok.WS, " ") ::
            (Tok.OPEN_PAREN, "(") :: (Tok.WS, " ") :: (Tok.IDENT, c) :: (Tok.WS, " ") ::
            (Tok.CLOSE_PAREN, ")") :: ((Tok.WS, " ") :: (Tok.CLOSE_PAREN, ")") ::
            (Render.renderExtras ex ++ (Tok.WS, " ") :: (Tok.SEMI_COLON, ";") :: rest)),
            (Tok.KEY, "KEY"), 1⟩ from rfl]
        rw [scanKey_render_replay]
        dsimp only
        rw [parseItems_close ex _ m rest _
          (by simp [Render.itemsCost, Render.itemCost] at hf; omega)]
        simp [Render.applyItems, Render.applyItem]
      | gconstraint n fk rt rc =>
        simp only [Render.renderItems, Render.renderItem, Render.w_def,
          List.cons_append, List.append_assoc, List.nil_append]
        rw [parseItems_succ, sIW_ws]
        dsimp only
        rw [show (⟨(Tok.WS, " ") :: (Tok.IDENT, n) :: (Tok.WS, " ") ::
            (Tok.FOREIGN, "FOREIGN") :: (Tok.WS, " ") :: (Tok.KEY, "KEY") ::
            (Tok.WS, " ") :: (Tok.OPEN_PAREN, "(") :: (Tok.WS, " ") :: (Tok.IDENT, fk) ::
            (Tok.WS, " ") :: (Tok.CLOSE_PAREN, ")") :: (Tok.WS, " ") ::
            (Tok.REFERENCES, "REFERENCES") :: (Tok.WS, " ") :: (Tok.IDENT, rt) ::
            (Tok.WS, " ") :: (Tok.OPEN_PAREN, "(") :: (Tok.WS, " ") :: (Tok.IDENT, rc) ::
            (Tok.WS, " ") :: (Tok.CLOSE_PAREN, ")") :: ((Tok.WS, " ") ::
            (Tok.CLOSE_PAREN, ")") :: (Render.renderExtras ex ++ (Tok.WS, " ") ::
            (Tok.SEMI_COLON, ";") :: rest)),
            (Tok.CONSTRAINT, "CONSTRAINT"), 0⟩ : Parser).unscan
          = ⟨(Tok.WS, " ") :: (Tok.IDENT, n) :: (Tok.WS, " ") ::
            (Tok.FOREIGN, "FOREIGN") :: (Tok.WS, " ") :: (Tok.KEY, "KEY") ::
            (Tok.WS, " ") :: (Tok.OPEN_PAREN, "(") :: (Tok.WS, " ") :: (Tok.IDENT, fk) ::
            (Tok.WS, " ") :: (Tok.CLOSE_PAREN, ")") :: (Tok.WS, " ") ::
            (Tok.REFERENCES, "REFERENCES") :: (Tok.WS, " ") :: (Tok.IDENT, rt) ::
            (Tok.WS, " ") :: (Tok.OPEN_PAREN, "(") :: (Tok.WS, " ") :: (Tok.IDENT, rc) ::
            (Tok.WS, " ") :: (Tok.CLOSE_PAREN, ")") :: ((Tok.WS, " ") ::
            (Tok.CLOSE_PAREN, ")") :: (Render.renderExtras ex ++ (Tok.WS, " ") ::
            (Tok.SEMI_COLON, ";") :: rest)),
            (Tok.CONSTRAINT, "CONSTRAINT"), 1⟩ from rfl]
        rw [scanConstraint_render]
        dsimp only
        rw [parseItems_close ex _ m rest _
          (by simp [Render.itemsCost, Render.itemCost] at hf; omega)]
        simp [Render.applyItems, Render.applyItem]
    | cons j js =>
      cases i with
      | gcol name ty tyLit sz cs =>
        simp only [Render.renderItems, Render.renderItem, Render.w_def,
          List.cons_append, List.append_assoc, List.nil_append]
        rw [parseItems_succ, sIW_ws]
        dsimp only
        rw [show (⟨Render.renderType ty tyLit sz ++ (Render.renderClauses cs ++
            (Tok.WS, " ") :: (Tok.COMMA, ",") :: (Render.renderItems (j :: js) ++
            (Tok.WS, " ") :: (Tok.CLOSE_PAREN, ")") :: (Render.renderExtras ex ++
            (Tok.WS, " ") :: (Tok.SEMI_COLON, ";") :: rest))),
            (Tok.IDENT, name), 0⟩ : Parser).unscan
          = ⟨Render.renderType ty tyLit sz ++ (Render.renderClauses cs ++
            (Tok.WS, " ") :: (Tok.COMMA, ",") :: (Render.renderItems (j :: js) ++
            (Tok.WS, " ") :: (Tok.CLOSE_PAREN, ")") :: (Render.renderExtras ex ++
            (Tok.WS, " ") :: (Tok.SEMI_COLON, ";") :: rest))),
            (Tok.IDENT, name), 1⟩ from rfl]
        have hcol := scanColumn_render name tyLit ty sz cs (Tok.COMMA, ",")
          (Render.renderItems (j :: js) ++ (Tok.WS, " ") :: (Tok.CLOSE_PAREN, ")") ::
            (Render.renderExtras ex ++ (Tok.WS, " ") :: (Tok.SEMI_COLON, ";") :: rest)) m
          hoki (Or.inl rfl)
          (by simp [Render.itemsCost, Render.itemCost] at hf; omega)
        simp only [List.append_assoc, List.cons_append] at hcol
        rw [hcol]
        dsimp only
        obtain ⟨m', rfl⟩ : ∃ m', m = m' + 1 :=
          ⟨m - 1, by simp [Render.itemsCost, Render.itemCost] at hf; omega⟩
        rw [parseItems_succ, sIW_replay _ _ (by decide) (by decide)]
        dsimp only
        rw [ih m' _ ex rest _ (fun x hx => hok x (List.mem_cons_of_mem _ hx))
          (by simp [Render.itemsCost, Render.itemCost] at hf ⊢; omega)]
        simp [Render.applyItems, Render.applyItem]
      | gprimary c =>
        simp only [Render.renderItems, Render.renderItem, Render.w_def,
          List.cons_append, List.append_assoc, List.nil_append]
        rw [parseItems_succ, sIW_ws]
        dsimp only
        rw [show (⟨(Tok.WS, " ") :: (Tok.KEY, "KEY") :: (Tok.WS, " ") ::
            (Tok.OPEN_PAREN, "(") :: (Tok.WS, " ") :: (Tok.IDENT, c) :: (Tok.WS, " ") ::
            (Tok.CLOSE_PAREN, ")") :: ((Tok.WS, " ") :: (Tok.COMMA, ",") ::
            (Render.renderItems (j :: js) ++ (Tok.WS, " ") :: (Tok.CLOSE_PAREN, ")") ::
            (Render.renderExtras ex ++ (Tok.WS, " ") :: (Tok.SEMI_COLON, ";") :: rest))),
            (Tok.PRIMARY, "PRIMARY"), 0⟩ : Parser).unscan
          = ⟨(Tok.WS, " ") :: (Tok.KEY, "KEY") :: (Tok.WS, " ") ::
            (Tok.OPEN_PAREN, "(") :: (Tok.WS, " ") :: (Tok.IDENT, c) :: (Tok.WS, " ") ::
            (Tok.CLOSE_PAREN, ")") :: ((Tok.WS, " ") :: (Tok.COMMA, ",") ::
            (Render.renderItems (j :: js) ++ (Tok.WS, " ") :: (Tok.CLOSE_PAREN, ")") ::
            (Render.renderExtras ex ++ (Tok.WS, " ") :: (Tok.SEMI_COLON, ";") :: rest))),
            (Tok.PRIMARY, "PRIMARY"), 1⟩ from rfl]
        rw [scanPrimaryKey_render]
        dsimp only
        obtain ⟨m', rfl⟩ : ∃ m', m = m' + 1 :=
          ⟨m - 1, by simp [Render.itemsCost, Render.itemCost] at hf; omega⟩
        rw [parseItems_succ, sIW_ws]
        dsimp only
        rw [ih m' _ ex rest _ (fun x hx => hok x (List.mem_cons_of_mem _ hx))
          (by simp [Render.itemsCost, Render.itemCost] at hf ⊢; omega)]
        simp [Render.applyItems, Render.applyItem]
      | gunique i c =>
        simp only [Render.renderItems, Render.renderItem, Render.w_def,
          List.cons_append, List.append_assoc, List.nil_append]
        rw [parseItems_succ, sIW_ws]
        dsimp only
        rw [scanKey_render_fresh]
        dsimp only
        obtain ⟨m', rfl⟩ : ∃ m', m = m' + 1 :=
          ⟨m - 1, by simp [Render.itemsCost, Render.itemCost] at hf; omega⟩
        rw [parseItems_succ, sIW_ws]
        dsimp only
        rw [ih m' _ ex rest _ (fun x hx => hok x (List.mem_cons_of_mem _ hx))
          (by simp [Render.itemsCost, Render.itemCost] at hf ⊢; omega)]
        simp [Render.applyItems, Render.applyItem]
      | gkey i c =>
        simp only [Render.renderItems, Render.renderItem, Render.w_def,
          List.cons_append, List.append_assoc, List.nil_append]
        rw [parseItems_succ, sIW_ws]
        dsimp only
        rw [show (⟨(Tok.WS, " ") :: (Tok.IDENT, i) :: (Tok.WS, " ") ::
            (Tok.OPEN_PAREN, "(") :: (Tok.WS, " ") :: (Tok.IDENT, c) :: (Tok.WS, " ") ::
            (Tok.CLOSE_PAREN, ")") :: ((Tok.WS, " ") :: (Tok.COMMA, ",") ::
            (Render.renderItems (j :: js) ++ (Tok.WS, " ") :: (Tok.CLOSE_PAREN, ")") ::
            (Render.renderExtras ex ++ (Tok.WS, " ") :: (Tok.SEMI_COLON, ";") :: rest))),
            (Tok.KEY, "KEY"), 0⟩ : Parser).unscan
          = ⟨(Tok.WS, " ") :: (Tok.IDENT, i) :: (Tok.WS, " ") ::
            (Tok.OPEN_PAREN, "(") :: (Tok.WS, " ") :: (Tok.IDENT, c) :: (Tok.WS, " ") ::
            (Tok.CLOSE_PAREN, ")") :: ((Tok.WS, " ") :: (Tok.COMMA, ",") ::
            (Render.renderItems (j :: js) ++ (Tok.WS, " ") :: (Tok.CLOSE_PAREN, ")") ::
            (Render.renderExtras ex ++ (Tok.WS, " ") :: (Tok.SEMI_COLON, ";") :: rest))),
            (Tok.KEY, "KEY"), 1⟩ from rfl]
        rw [scanKey_render_replay]
        dsimp only
        obtain ⟨m', rfl⟩ : ∃ m', m = m' + 1 :=
          ⟨m - 1, by simp [Render.itemsCost, Render.itemCost] at hf; omega⟩
        rw [parseItems_succ, sIW_ws]
        dsimp only
        rw [ih m' _ ex rest _ (fun x hx => hok x (List.mem_cons_of_mem _ hx))
          (by simp [Render.itemsCost, Render.itemCost] at hf ⊢; omega)]
        simp [Render.applyItems, Render.applyItem]
      | gconstraint n fk rt rc =>
        simp only [Render.renderItems, Render.renderItem, Render.w_def,
          List.cons_append, List.append_assoc, List.nil_append]
        rw [parseItems_succ, sIW_ws]
        dsimp only
        rw [show (⟨(Tok.WS, " ") :: (Tok.IDENT, n) :: (Tok.WS, " ") ::
            (Tok.FOREIGN, "FOREIGN") :: (Tok.WS, " ") :: (Tok.KEY, "KEY") ::
            (Tok.WS, " ") :: (Tok.OPEN_PAREN, "(") :: (Tok.WS, " ") :: (Tok.IDENT, fk) ::
            (Tok.WS, " ") :: (Tok.CLOSE_PAREN, ")") :: (Tok.WS, " ") ::
            (Tok.REFERENCES, "REFERENCES") :: (Tok.WS, " ") :: (Tok.IDENT, rt) ::
            (Tok.WS, " ") :: (Tok.OPEN_PAREN, "(") :: (Tok.WS, " ") :: (Tok.IDENT, rc) ::
            (Tok.WS, " ") :: (Tok.CLOSE_PAREN, ")") :: ((Tok.WS, " ") ::
            (Tok.COMMA, ",") :: (Render.renderItems (j :: js) ++ (Tok.WS, " ") ::
            (Tok.CLOSE_PAREN, ")") :: (Render.renderExtras ex ++ (Tok.WS, " ") ::
            (Tok.SEMI_COLON, ";") :: rest))),
            (Tok.CONSTRAINT, "CONSTRAINT"), 0⟩ : Parser).unscan
          = ⟨(Tok.WS, " ") :: (Tok.IDENT, n) :: (Tok.WS, " ") ::
            (Tok.FOREIGN, "FOREIGN") :: (Tok.WS, " ") :: (Tok.KEY, "KEY") ::
            (Tok.WS, " ") :: (Tok.OPEN_PAREN, "(") :: (Tok.WS, " ") :: (Tok.IDENT, fk) ::
            (Tok.WS, " ") :: (Tok.CLOSE_PAREN, ")") :: (Tok.WS, " ") ::
            (Tok.REFERENCES, "REFERENCES") :: (Tok.WS, " ") :: (Tok.IDENT, rt) ::
            (Tok.WS, " ") :: (Tok.OPEN_PAREN, "(") :: (Tok.WS, " ") :: (Tok.IDENT, rc) ::
            (Tok.WS, " ") :: (Tok.CLOSE_PAREN, ")") :: ((Tok.WS, " ") ::
            (Tok.COMMA, ",") :: (Render.renderItems (j :: js) ++ (Tok.WS, " ") ::
            (Tok.CLOSE_PAREN, ")") :: (Render.renderExtras ex ++ (Tok.WS, " ") ::
            (Tok.SEMI_COLON, ";") :: rest))),
            (Tok.CONSTRAINT, "CONSTRAINT"), 1⟩ from rfl]
        rw [scanConstraint_render]
        dsimp only
        obtain ⟨m', rfl⟩ : ∃ m', m = m' + 1 :=
          ⟨m - 1, by simp [Render.itemsCost, Render.itemCost] at hf; omega⟩
        rw [parseItems_succ, sIW_ws]
        dsimp only
        rw [ih m' _ ex rest _ (fun x hx => hok x (List.mem_cons_of_mem _ hx))
          (by simp [Render.itemsCost, Render.itemCost] at hf ⊢; omega)]
        simp [Render.applyItems, Render.applyItem]

end Parser

namespace Render

/-- Whitespace-separated token sequence. -/
def wseq : List (Tok × String) → List (Tok × String)
  | [] => []
  | t :: ts => w t ++ wseq ts

/-- The skippable statements: DROP TABLE IF EXISTS n, LOCK TABLES n
WRITE, UNLOCK TABLES. -/
inductive SkipG where
  | sdrop (n : String)
  | slock (n : String)
  | sunlock
  deriving DecidableEq, Repr

/-- The keyword token opening a skippable statement. -/
def skipHead : SkipG → (Tok × String)
  | SkipG.sdrop _ => (Tok.DROP, "DROP")
  | SkipG.slock _ => (Tok.LOCK, "LOCK")
  | SkipG.sunlock => (Tok.UNLOCK, "UNLOCK")

/-- The tokens of a skippable statement between its keyword and its
semicolon. -/
def skipBody : SkipG → List (Tok × String)
  | SkipG.sdrop n => [(Tok.TABLE, "TABLE"), (Tok.IF, "IF"), (Tok.EXISTS, "EXISTS"),
      (Tok.IDENT, n)]
  | SkipG.slock n => [(Tok.TABLES, "TABLES"), (Tok.IDENT, n), (Tok.WRITE, "WRITE")]
  | SkipG.sunlock => [(Tok.TABLES, "TABLES")]

/-- Inter-statement material: a bare semicolon, a whitespace-preceded
semicolon, a whitespace-preceded comment token (a line comment consumes
its own newline, a block comment must be directly followed by the next
statement or semicolon for the single-token skip of
scanIgnoreWhitespace to hide it), or a whole skippable statement. -/
inductive PreG where
  | psemi
  | pwsSemi
  | pwsAnn
  | pskip (k : SkipG)
  deriving DecidableEq, Repr

def renderPre : PreG → List (Tok × String)
  | PreG.psemi => [(Tok.SEMI_COLON, ";")]
  | PreG.pwsSemi => w (Tok.SEMI_COLON, ";")
  | PreG.pwsAnn => w (Tok.ANNOT, "")
  | PreG.pskip k => w (skipHead k) ++ wseq (skipBody k) ++ w (Tok.SEMI_COLON, ";")

def renderPres : List PreG → List (Tok × String)
  | [] => []
  | p :: ps => renderPre p ++ renderPres ps

def preCost : PreG → Nat
  | PreG.pskip k => (skipBody k).length + 3
  | _ => 1

def presCost : List PreG → Nat
  | [] => 0
  | p :: ps => preCost p + presCost ps

/-- One well-formed CREATE TABLE statement. -/
structure CreateG where
  cname : String
  items : List ItemG
  extras : List (String × String)
  deriving DecidableEq, Repr

def renderCreate (c : CreateG) : List (Tok × String) :=
  w (Tok.CREATE, "CREATE") ++ w (Tok.TABLE, "TABLE") ++ w (Tok.IDENT, c.cname) ++
    w (Tok.OPEN_PAREN, "(") ++ renderItems c.items ++ w (Tok.CLOSE_PAREN, ")") ++
    renderExtras c.extras ++ w (Tok.SEMI_COLON, ";")

/-- The table a well-formed CREATE TABLE statement denotes. -/
def tableOf (c : CreateG) : Table :=
  applyExtras (applyItems (Table.fresh c.cname) c.items) c.extras

def createCost (c : CreateG) : Nat :=
  itemsCost c.items + c.extras.length + 4

def createOk (c : CreateG) : Prop := ∀ i ∈ c.items, itemOk i

/-- A whole input: statements with their leading inter-statement
material, then trailing material. -/
def renderInput (stmts : List (List PreG × CreateG)) (trailing : List PreG) :
    List (Tok × String) :=
  stmts.foldr (fun pc acc => renderPres pc.1 ++ renderCreate pc.2 ++ acc)
    (renderPres trailing)

def inputCost (stmts : List (List PreG × CreateG)) (trailing : List PreG) : Nat :=
  stmts.foldr (fun pc acc => presCost pc.1 + createCost pc.2 + acc)
    (presCost trailing + 3)

theorem inputCost_pos (stmts : List (List PreG × CreateG)) (trailing : List PreG) :
    3 ≤ inputCost stmts trailing := by
  induction stmts with
  | nil => simp [inputCost]
  | cons pc stmts ih => simp [inputCost] at ih ⊢; omega

/-- The schema Parse builds from the statements, in order. -/
def schemaOf (stmts : List (List PreG × CreateG)) : Schema :=
  stmts.foldl (fun s pc => upsert s (tableOf pc.2).Name (tableOf pc.2)) []

end Render

namespace Parser

/-- The start states a statement boundary can be in: fresh with any
buffered token, or with the consumed semicolon pushed back (the
extras path of the previous statement leaves it for replay). -/
def StartSt (toks : List (Tok × String)) (p : Parser) : Prop :=
  (∃ b, p = ⟨toks, b, 0⟩) ∨ p = ⟨toks, (Tok.SEMI_COLON, ";"), 1⟩

/-- skipStmt runs through whitespace-separated non-semicolon tokens and
stops after the closing semicolon. -/
theorem skipStmt_render (ts : List (Tok × String)) :
    ∀ (fuel : Nat) (rest : List (Tok × String)) (b : Tok × String),
      (∀ t ∈ ts, t.1 ≠ Tok.SEMI_COLON ∧ t.1 ≠ Tok.EOF ∧ t.1 ≠ Tok.WS ∧ t.1 ≠ Tok.ANNOT) →
      ts.length + 1 ≤ fuel →
      skipStmt ⟨Render.wseq ts ++ (Tok.WS, " ") :: (Tok.SEMI_COLON, ";") :: rest, b, 0⟩ fuel
        = some (some ⟨rest, (Tok.SEMI_COLON, ";"), 0⟩) := by
  induction ts with
  | nil =>
    intro fuel rest b _ hf
    obtain ⟨m, rfl⟩ : ∃ m, fuel = m + 1 := ⟨fuel - 1, by omega⟩
    unfold skipStmt
    rw [Render.wseq, List.nil_append, sIW_ws]
    dsimp only
    rw [if_pos rfl]
  | cons t ts ih =>
    intro fuel rest b hok hf
    obtain ⟨m, rfl⟩ : ∃ m, fuel = m + 1 := ⟨fuel - 1, by omega⟩
    obtain ⟨h1, h2, h3, h4⟩ := hok t (List.mem_cons_self t ts)
    unfold skipStmt
    simp only [Render.wseq, Render.w_def, List.cons_append, List.append_assoc,
      List.nil_append]
    rw [sIW_ws]
    dsimp only
    rw [if_neg h1, if_neg h2]
    exact ih m rest _ (fun u hu => hok u (List.mem_cons_of_mem t hu))
      (by simp at hf ⊢; omega)

/-- parsePre consumes the rendered inter-statement material and stops on
the CREATE keyword. -/
theorem parsePre_render (ps : List Render.PreG) :
    ∀ (fuel : Nat) (rest : List (Tok × String)) (b : Tok × String),
      Render.presCost ps + 1 ≤ fuel →
      parsePre ⟨Render.renderPres ps ++ (Tok.WS, " ") :: (Tok.CREATE, "CREATE") :: rest,
          b, 0⟩ fuel
        = some (PreOut.toCreate ⟨rest, (Tok.CREATE, "CREATE"), 0⟩) := by
  induction ps with
  | nil =>
    intro fuel rest b hf
    obtain ⟨m, rfl⟩ : ∃ m, fuel = m + 1 := ⟨fuel - 1, by omega⟩
    unfold parsePre
    rw [Render.renderPres, List.nil_append, sIW_ws]
    dsimp only
    rw [if_neg (by decide), if_neg (by decide), if_pos rfl]
  | cons q ps ih =>
    intro fuel rest b hf
    obtain ⟨m, rfl⟩ : ∃ m, fuel = m + 1 :=
      ⟨fuel - 1, by simp [Render.presCost, Render.preCost] at hf; omega⟩
    cases q with
    | psemi =>
      unfold parsePre
      simp only [Render.renderPres, Render.renderPre, List.cons_append,
        List.append_assoc, List.nil_append]
      rw [sIW_sig _ _ _ (by decide) (by decide)]
      dsimp only
      rw [if_neg (by decide), if_pos (by decide)]
      exact ih m rest _ (by simp [Render.presCost, Render.preCost] at hf ⊢; omega)
    | pwsSemi =>
      unfold parsePre
      simp only [Render.renderPres, Render.renderPre, Render.w_def, List.cons_append,
        List.append_assoc, List.nil_append]
      rw [sIW_ws]
      dsimp only
      rw [if_neg (by decide), if_pos (by decide)]
      exact ih m rest _ (by simp [Render.presCost, Render.preCost] at hf ⊢; omega)
    | pwsAnn =>
      unfold parsePre
      simp only [Render.renderPres, Render.renderPre, Render.w_def, List.cons_append,
        List.append_assoc, List.nil_append]
      rw [sIW_ws]
      dsimp only
      rw [if_neg (by decide), if_pos (by decide)]
      exact ih m rest _ (by simp [Render.presCost, Render.preCost] at hf ⊢; omega)
    | pskip k =>
      unfold parsePre
      simp only [Render.renderPres, Render.renderPre, Render.w_def, List.cons_append,
        List.append_assoc, List.nil_append]
      rw [sIW_ws]
      dsimp only
      rw [if_pos (by cases k <;> simp [Render.skipHead])]
      rw [skipStmt_render (Render.skipBody k) m
        (Render.renderPres ps ++ (Tok.WS, " ") :: (Tok.CREATE, "CREATE") :: rest) _
        (by cases k <;> intro t ht <;> fin_cases ht <;> simp)
        (by cases k <;> simp [Render.skipBody, Render.presCost, Render.preCost] at hf ⊢ <;> omega)]
      exact ih m rest _ (by simp [Render.presCost, Render.preCost] at hf ⊢; omega)

/-- parsePre at the end of the input: trailing material then end of
stream yields the clean finished outcome. -/
theorem parsePre_render_end (ps : List Render.PreG) :
    ∀ (fuel : Nat) (b : Tok × String),
      Render.presCost ps + 1 ≤ fuel →
      parsePre ⟨Render.renderPres ps, b, 0⟩ fuel = some PreOut.finished := by
  induction ps with
  | nil =>
    intro fuel b hf
    obtain ⟨m, rfl⟩ : ∃ m, fuel = m + 1 := ⟨fuel - 1, by omega⟩
    unfold parsePre
    rw [Render.renderPres]
    rw [show scanIgnoreWhitespace ⟨[], b, 0⟩
      = ((Tok.EOF, "EOF"), ⟨[], (Tok.EOF, "EOF"), 0⟩) from by
        simp [scanIgnoreWhitespace, scan]]
    dsimp only
    rw [if_neg (by decide), if_neg (by decide), if_neg (by decide), if_pos rfl]
  | cons q ps ih =>
    intro fuel b hf
    obtain ⟨m, rfl⟩ : ∃ m, fuel = m + 1 :=
      ⟨fuel - 1, by simp [Render.presCost, Render.preCost] at hf; omega⟩
    cases q with
    | psemi =>
      unfold parsePre
      simp only [Render.renderPres, Render.renderPre, List.cons_append,
        List.append_assoc, List.nil_append]
      rw [sIW_sig _ _ _ (by decide) (by decide)]
      dsimp only
      rw [if_neg (by decide), if_pos (by decide)]
      exact ih m _ (by simp [Render.presCost, Render.preCost] at hf ⊢; omega)
    | pwsSemi =>
      unfold parsePre
      simp only [Render.renderPres, Render.renderPre, Render.w_def, List.cons_append,
        List.append_assoc, List.nil_append]
      cases hps : Render.renderPres ps with
      | nil =>
        rw [show scanIgnoreWhitespace ⟨[(Tok.WS, " "), (Tok.SEMI_COLON, ";")], b, 0⟩
          = ((Tok.SEMI_COLON, ";"), ⟨[], (Tok.SEMI_COLON, ";"), 0⟩) from by
            simp [scanIgnoreWhitespace, scan]]
        dsimp only
        rw [if_neg (by decide), if_pos (by decide)]
        exact hps ▸ ih m _ (by simp [Render.presCost, Render.preCost] at hf ⊢; omega)
      | cons u us =>
        rw [show ((Tok.WS, " ") :: (Tok.SEMI_COLON, ";") :: (u :: us))
          = (Tok.WS, " ") :: (Tok.SEMI_COLON, ";") :: u :: us from rfl]
        rw [sIW_ws]
        dsimp only
        rw [if_neg (by decide), if_pos (by decide)]
        exact hps ▸ ih m _ (by simp [Render.presCost, Render.preCost] at hf ⊢; omega)
    | pwsAnn =>
      unfold parsePre
      simp only [Render.renderPres, Render.renderPre, Render.w_def, List.cons_append,
        List.append_assoc, List.nil_append]
      cases hps : Render.renderPres ps with
      | nil =>
        rw [show scanIgnoreWhitespace ⟨[(Tok.WS, " "), (Tok.ANNOT, "")], b, 0⟩
          = ((Tok.ANNOT, ""), ⟨[], (Tok.ANNOT, ""), 0⟩) from by
            simp [scanIgnoreWhitespace, scan]]
        dsimp only
        rw [if_neg (by decide), if_pos (by decide)]
        exact hps ▸ ih m _ (by simp [Render.presCost, Render.preCost] at hf ⊢; omega)
      | cons u us =>
        rw [sIW_ws]
        dsimp only
        rw [if_neg (by decide), if_pos (by decide)]
        exact hps ▸ ih m _ (by simp [Render.presCost, Render.preCost] at hf ⊢; omega)
    | pskip k =>
      unfold parsePre
      simp only [Render.renderPres, Render.renderPre, Render.w_def, List.cons_append,
        List.append_assoc, List.nil_append]
      rw [sIW_ws]
      dsimp only
      rw [if_pos (by cases k <;> simp [Render.skipHead])]
      rw [skipStmt_render (Render.skipBody k) m (Render.renderPres ps) _
        (by cases k <;> intro t ht <;> fin_cases ht <;> simp)
        (by cases k <;> simp [Render.skipBody, Render.presCost, Render.preCost] at hf ⊢ <;> omega)]
      exact ih m _ (by simp [Render.presCost, Render.preCost] at hf ⊢; omega)

end Parser

namespace Parser

/-- parsePre from a statement-boundary start state. -/
theorem parsePre_start (ps : List Render.PreG) (fuel : Nat)
    (rest : List (Tok × String)) (p : Parser)
    (h : StartSt (Render.renderPres ps ++ (Tok.WS, " ") ::
      (Tok.CREATE, "CREATE") :: rest) p)
    (hf : Render.presCost ps + 2 ≤ fuel) :
    parsePre p fuel = some (PreOut.toCreate ⟨rest, (Tok.CREATE, "CREATE"), 0⟩) := by
  rcases h with ⟨b, rfl⟩ | rfl
  · exact parsePre_render ps fuel rest b (by omega)
  · obtain ⟨m, rfl⟩ : ∃ m, fuel = m + 1 := ⟨fuel - 1, by omega⟩
    unfold parsePre
    rw [sIW_replay _ _ (by decide) (by decide)]
    dsimp only
    rw [if_neg (by decide), if_pos (by decide)]
    exact parsePre_render ps m rest _ (by omega)

/-- parsePre from a statement-boundary start state at end of input. -/
theorem parsePre_start_end (ps : List Render.PreG) (fuel : Nat) (p : Parser)
    (h : StartSt (Render.renderPres ps) p)
    (hf : Render.presCost ps + 2 ≤ fuel) :
    parsePre p fuel = some PreOut.finished := by
  rcases h with ⟨b, rfl⟩ | rfl
  · exact parsePre_render_end ps fuel b (by omega)
  · obtain ⟨m, rfl⟩ : ∃ m, fuel = m + 1 := ⟨fuel - 1, by omega⟩
    unfold parsePre
    rw [sIW_replay _ _ (by decide) (by decide)]
    dsimp only
    rw [if_neg (by decide), if_pos (by decide)]
    exact parsePre_render_end ps m _ (by omega)

/-- parse() on one rendered CREATE TABLE statement with its leading
inter-statement material, from a statement-boundary start state. -/
theorem parseOne_render (ps : List Render.PreG) (c : Render.CreateG) :
    ∀ (fuel : Nat) (p : Parser) (rest : List (Tok × String)),
      StartSt (Render.renderPres ps ++ Render.renderCreate c ++ rest) p →
      Render.createOk c →
      Render.presCost ps + Render.createCost c + 2 ≤ fuel →
      parseOne p fuel = some (Except.ok (some (Render.tableOf c)),
        ⟨rest, (Tok.SEMI_COLON, ";"), Render.extraFlagN c.extras⟩) := by
  intro fuel p rest hst hok hf
  unfold parseOne
  simp only [Render.renderCreate, Render.w_def, List.cons_append, List.append_assoc,
    List.nil_append] at hst
  rw [parsePre_start ps fuel _ p hst
    (by simp [Render.createCost] at hf; omega)]
  dsimp only
  rw [sIW_ws]
  dsimp only
  rw [if_neg (by decide)]
  rw [scanIdent_ws]
  dsimp only
  rw [if_neg (by decide)]
  rw [sIW_ws]
  dsimp only
  rw [if_neg (by decide)]
  have hitems := parseItems_render c.items fuel (Table.fresh c.cname) c.extras rest
    (Tok.OPEN_PAREN, "(") hok (by simp [Render.createCost] at hf; omega)
  simp only [List.cons_append, List.append_assoc, List.nil_append] at hitems
  rw [hitems]
  rfl

/-- parse() on trailing inter-statement material at end of input yields
the clean no-table outcome. -/
theorem parseOne_render_end (ps : List Render.PreG) (fuel : Nat) (p : Parser)
    (hst : StartSt (Render.renderPres ps) p)
    (hf : Render.presCost ps + 2 ≤ fuel) :
    parseOne p fuel = some (Except.ok none, p) := by
  unfold parseOne
  rw [parsePre_start_end ps fuel p hst hf]

/-- The Parse loop over a rendered sequence of well-formed statements
accumulates exactly one upsert per CREATE TABLE statement and ends with
no error. -/
theorem ParseLoop_render (stmts : List (List Render.PreG × Render.CreateG)) :
    ∀ (trailing : List Render.PreG) (fuel : Nat) (sch : Schema) (p : Parser),
      StartSt (Render.renderInput stmts trailing) p →
      (∀ pc ∈ stmts, Render.createOk pc.2) →
      Render.inputCost stmts trailing ≤ fuel →
      ParseLoop sch p fuel
        = some (stmts.foldl (fun s pc =>
            upsert s (Render.tableOf pc.2).Name (Render.tableOf pc.2)) sch, none) := by
  induction stmts with
  | nil =>
    intro trailing fuel sch p hst hok hf
    obtain ⟨m, rfl⟩ : ∃ m, fuel = m + 1 :=
      ⟨fuel - 1, by simp [Render.inputCost] at hf; omega⟩
    unfold ParseLoop
    rw [parseOne_render_end trailing m p
      (by simpa [Render.renderInput] using hst)
      (by simp [Render.inputCost] at hf; omega)]
    rfl
  | cons pc stmts' ih =>
    obtain ⟨ps, c⟩ := pc
    intro trailing fuel sch p hst hok hf
    obtain ⟨m, rfl⟩ : ∃ m, fuel = m + 1 :=
      ⟨fuel - 1, by
        have hp := Render.inputCost_pos stmts' trailing
        simp [Render.inputCost] at hf hp; omega⟩
    unfold ParseLoop
    rw [parseOne_render ps c m p (Render.renderInput stmts' trailing)
      (by simpa [Render.renderInput, List.append_assoc] using hst)
      (hok (ps, c) (List.mem_cons_self _ _))
      (by have hp := Render.inputCost_pos stmts' trailing
          simp [Render.inputCost] at hf hp ⊢; omega)]
    dsimp only
    rw [ih trailing m (upsert sch (Render.tableOf c).Name (Render.tableOf c))
      ⟨Render.renderInput stmts' trailing, (Tok.SEMI_COLON, ";"),
        Render.extraFlagN c.extras⟩
      (by cases hex : c.extras with
        | nil => exact Or.inl ⟨(Tok.SEMI_COLON, ";"), by simp [Render.extraFlagN, hex]⟩
        | cons kv ex' => exact Or.inr (by simp [Render.extraFlagN, hex]))
      (fun q hq => hok q (List.mem_cons_of_mem _ hq))
      (by have hp := Render.inputCost_pos stmts' trailing
          simp [Render.inputCost, Render.createCost] at hf hp ⊢; omega)]
    rfl

end Parser

namespace Render

theorem applyItem_name (tbl : Table) (i : ItemG) : (applyItem tbl i).Name = tbl.Name := by
  cases i <;> rfl

theorem applyItems_name (is : List ItemG) :
    ∀ tbl : Table, (applyItems tbl is).Name = tbl.Name := by
  induction is with
  | nil => intro tbl; rfl
  | cons i is ih =>
    intro tbl
    show (applyItems (applyItem tbl i) is).Name = tbl.Name
    rw [ih, applyItem_name]

theorem applyExtras_name (tbl : Table) (ex : List (String × String)) :
    (applyExtras tbl ex).Name = tbl.Name := by
  cases ex <;> rfl

/-- The table a rendered CREATE statement builds keeps the declared name. -/
theorem tableOf_name (c : CreateG) : (tableOf c).Name = c.cname := by
  unfold tableOf
  rw [applyExtras_name, applyItems_name]
  rfl

end Render

/-- Upserting an absent key appends it to the key list. -/
theorem upsert_keys_fresh {α : Type} (m : List (String × α)) (k : String) (v : α)
    (h : k ∉ m.map Prod.fst) :
    (upsert m k v).map Prod.fst = m.map Prod.fst ++ [k] := by
  induction m with
  | nil => rfl
  | cons q m ih =>
    obtain ⟨u, a⟩ := q
    simp only [List.map_cons, List.mem_cons] at h
    push_neg at h
    simp [upsert, Ne.symm h.1, ih h.2]

namespace Render

/-- Folding the per-statement upserts over distinct fresh names appends
the statement names, in order, to the accumulated key list. -/
theorem schemaOf_keys_aux (stmts : List (List PreG × CreateG)) :
    ∀ sch : Schema,
      (stmts.map (fun pc => pc.2.cname)).Nodup →
      (∀ n ∈ stmts.map (fun pc => pc.2.cname), n ∉ sch.map Prod.fst) →
      (stmts.foldl (fun s pc =>
          upsert s (tableOf pc.2).Name (tableOf pc.2)) sch).map Prod.fst
        = sch.map Prod.fst ++ stmts.map (fun pc => pc.2.cname) := by
  induction stmts with
  | nil => intro sch _ _; simp
  | cons pc stmts ih =>
    obtain ⟨ps, c⟩ := pc
    intro sch hnd hfresh
    simp only [List.map_cons, List.nodup_cons] at hnd
    have hc : c.cname ∉ sch.map Prod.fst := hfresh c.cname (by simp)
    have hkeys : (upsert sch (tableOf c).Name (tableOf c)).map Prod.fst
        = sch.map Prod.fst ++ [c.cname] := by
      rw [tableOf_name]
      exact upsert_keys_fresh sch c.cname _ hc
    simp only [List.foldl_cons]
    rw [ih (upsert sch (tableOf c).Name (tableOf c)) hnd.2
      (by intro n hn
          rw [hkeys]
          simp only [List.mem_append, List.mem_singleton]
          rintro (hin | rfl)
          · exact hfresh n (by simp [hn]) hin
          · exact hnd.1 hn),
      hkeys]
    simp

end Render

/-- C3: the claim reads every input made only of well-formed CREATE TABLE
statements, interleaved with DROP/LOCK/UNLOCK statements and comments,
parses with no error and one table per statement.  Amended form: this
holds for the token-level grammar of such inputs in which the rendered
separators are those the parser actually consumes (each skipped
statement is a DROP/LOCK/UNLOCK statement ended by a semicolon, comments
only ever reach the parser as the single ANNOTATION token of a line
comment at a statement boundary) and the declared table names are
pairwise distinct: Parse returns the schema with exactly one entry per
CREATE TABLE statement, keyed by the declared names in order, and no
error. -/
theorem claim_C3_amended
    (stmts : List (List Render.PreG × Render.CreateG)) (trailing : List Render.PreG)
    (fuel : Nat)
    (hok : ∀ pc ∈ stmts, Render.createOk pc.2)
    (hnd : (stmts.map (fun pc => pc.2.cname)).Nodup)
    (hf : Render.inputCost stmts trailing ≤ fuel) :
    Parser.Parse (Render.renderInput stmts trailing) fuel
        = some (Render.schemaOf stmts, none) ∧
      (Render.schemaOf stmts).map Prod.fst = stmts.map (fun pc => pc.2.cname) := by
  constructor
  · show Parser.ParseLoop [] (mkParser (Render.renderInput stmts trailing)) fuel = _
    rw [Parser.ParseLoop_render stmts trailing fuel []
      (mkParser (Render.renderInput stmts trailing))
      (Or.inl ⟨(Tok.ILLEGAL, ""), rfl⟩) hok hf]
    rfl
  · simpa [Render.schemaOf] using
      Render.schemaOf_keys_aux stmts [] hnd (by intro n hn; simp)

/-- Witness for C3: a DROP statement, then a CREATE TABLE with a sized
column, a NOT NULL clause and an ENGINE extra, then a trailing line
comment, parses to the one-table schema with no error. -/
theorem claim_C3_amended_witness :
    Parser.Parse (Render.renderInput
        [([Render.PreG.pskip (Render.SkipG.sdrop "old")],
          ⟨"users", [Render.ItemG.gcol "id" Tok.BIGINT "bigint" (some "20")
            [Render.Clause.cnotNull]], [("ENGINE", "InnoDB")]⟩)]
        [Render.PreG.pwsAnn]) 60
      = some (Render.schemaOf
        [([Render.PreG.pskip (Render.SkipG.sdrop "old")],
          ⟨"users", [Render.ItemG.gcol "id" Tok.BIGINT "bigint" (some "20")
            [Render.Clause.cnotNull]], [("ENGINE", "InnoDB")]⟩)], none) ∧
      (Render.schemaOf
        [([Render.PreG.pskip (Render.SkipG.sdrop "old")],
          ⟨"users", [Render.ItemG.gcol "id" Tok.BIGINT "bigint" (some "20")
            [Render.Clause.cnotNull]], [("ENGINE", "InnoDB")]⟩)]).map Prod.fst
        = [([Render.PreG.pskip (Render.SkipG.sdrop "old")],
          (⟨"users", [Render.ItemG.gcol "id" Tok.BIGINT "bigint" (some "20")
            [Render.Clause.cnotNull]], [("ENGINE", "InnoDB")]⟩ : Render.CreateG))].map
            (fun pc => pc.2.cname) :=
  claim_C3_amended _ _ 60
    (by intro pc hpc i hi; fin_cases hpc; fin_cases hi; exact rfl)
    (by decide) (by decide)

/-- Counterexample to C3 as stated: a block comment followed by a space
before a well-formed CREATE TABLE statement.  scanIgnoreWhitespace skips
at most one token, so the whitespace token emitted after the comment
reaches the parser and Parse errors instead of returning the table. -/
theorem claim_C3_counterexample :
    (Scanner.tokenize (mkScan "/*c*/ CREATE TABLE `t` (`c` int);") 120).map
        (fun ts => Parser.Parse ts 40)
      = some (some ([], some "unexpected token:  ")) := by decide
